import Mathlib

/-!
# Verification of the Open-Data Reconciliation Engine (`main.py`)

A shallow embedding, in Lean 4, of the core functions of `main.py` of the
`arquivos-de-ativos` repository, together with theorems settling the frozen
claims about it.

Modelling conventions
* Python strings are embedded as `List Char` (`Str`); all string operations
  (substring test, lexicographic order, lowercase, digit filtering, …) are
  implemented structurally so that concrete instances reduce by `decide`.
  Python compares strings by code point, as does our `strLe`.
* Python floats are embedded as `ℚ`.  `round(x, n)` is embedded as exact
  round-half-to-even on rationals (`pyRound`).  Non-finite floats (`nan`,
  `inf`) are outside the model: a CSV cell is a raw string together with the
  result of Python's `float(raw.replace(",", "."))` attempt, modelled as an
  `Option ℚ` oracle field (`none` = `ValueError`).
* Network and library effects (HTTP requests, zip extraction, byte decoding,
  HTML scraping) are modelled as oracle inputs describing exactly the
  observations the code makes of them; the control flow around those
  observations is translated from the source.
* Mutable state (the module-level caches) is modelled by explicit state
  passing; wall-clock time is an explicit integer parameter.
-/

/-! ## String embedding -/

abbrev Str := List Char

def str (s : String) : Str := s.data

/-- Python `s.lower()` (ASCII-adequate model via `Char.toLower`). -/
def lowerStr (s : Str) : Str := s.map Char.toLower

/-- Python `s.upper()` (ASCII-adequate model via `Char.toUpper`). -/
def upperStr (s : Str) : Str := s.map Char.toUpper

/-- Python `s.strip()`. -/
def stripStr (s : Str) : Str :=
  ((s.dropWhile Char.isWhitespace).reverse.dropWhile Char.isWhitespace).reverse

def isPrefixC : Str → Str → Bool
  | [], _ => true
  | _ :: _, [] => false
  | x :: xs, y :: ys => x = y && isPrefixC xs ys

/-- Python `pat in s` (contiguous substring test). -/
def containsSub (s pat : Str) : Bool :=
  match s with
  | [] => pat.isEmpty
  | _ :: rest => isPrefixC pat s || containsSub rest pat

/-- Python `re.sub(r"\D", "", s)`: keep only decimal digits. -/
def digitsOf (s : Str) : Str := s.filter Char.isDigit

/-- Python string `<=` (lexicographic by code point; a prefix is smaller). -/
def strLe (a b : Str) : Bool :=
  match a, b with
  | [], _ => true
  | _ :: _, [] => false
  | x :: xs, y :: ys => if x = y then strLe xs ys else decide (x < y)

/-- Python string `<`: `strLe` and different. -/
def strLt (a b : Str) : Prop := strLe a b = true ∧ a ≠ b

theorem strLe_refl (a : Str) : strLe a a = true := by
  induction a with
  | nil => rfl
  | cons x xs ih => simp [strLe, ih]

theorem strLe_total (a b : Str) : strLe a b = true ∨ strLe b a = true := by
  induction a generalizing b with
  | nil => left; cases b <;> rfl
  | cons x xs ih =>
    cases b with
    | nil => right; rfl
    | cons y ys =>
      rcases lt_trichotomy x y with h | h | h
      · left; simp [strLe, ne_of_lt h, h]
      · subst h
        rcases ih ys with h2 | h2
        · left; simpa [strLe] using h2
        · right; simpa [strLe] using h2
      · right; simp [strLe, ne_of_lt h, h]

theorem strLe_trans {a b c : Str} (h1 : strLe a b = true) (h2 : strLe b c = true) :
    strLe a c = true := by
  induction a generalizing b c with
  | nil => rfl
  | cons x xs ih =>
    cases b with
    | nil => simp [strLe] at h1
    | cons y ys =>
      cases c with
      | nil => simp [strLe] at h2
      | cons z zs =>
        by_cases hxy : x = y
        · subst hxy
          simp only [strLe, if_pos rfl] at h1
          by_cases hyz : x = z
          · subst hyz
            simp only [strLe, if_pos rfl] at h2 ⊢
            exact ih h1 h2
          · simp only [strLe, if_neg hyz] at h2 ⊢
            exact h2
        · simp only [strLe, if_neg hxy, decide_eq_true_eq] at h1
          by_cases hyz : y = z
          · subst hyz
            simp [strLe, hxy, h1]
          · simp only [strLe, if_neg hyz, decide_eq_true_eq] at h2
            have hxz : x < z := lt_trans h1 h2
            simp [strLe, ne_of_lt hxz, hxz]

theorem strLe_antisymm {a b : Str} (h1 : strLe a b = true) (h2 : strLe b a = true) :
    a = b := by
  induction a generalizing b with
  | nil => cases b with
    | nil => rfl
    | cons y ys => simp [strLe] at h2
  | cons x xs ih =>
    cases b with
    | nil => simp [strLe] at h1
    | cons y ys =>
      by_cases hxy : x = y
      · subst hxy
        simp only [strLe, if_pos rfl] at h1 h2
        rw [ih h1 h2]
      · simp only [strLe, if_neg hxy, decide_eq_true_eq] at h1
        simp only [strLe, if_neg (Ne.symm hxy), decide_eq_true_eq] at h2
        exact absurd h2 (asymm h1)

/-! ## Python `round` on rationals

Python's `round(x, n)` rounds half to even.  We model it exactly on `ℚ`. -/

def roundHalfEven (q : ℚ) : ℤ :=
  let f : ℤ := ⌊q⌋
  if q - f < 1/2 then f
  else if (1 : ℚ)/2 < q - f then f + 1
  else if f % 2 = 0 then f else f + 1

def pyRound (q : ℚ) (n : ℕ) : ℚ := (roundHalfEven (q * 10 ^ n) : ℚ) / 10 ^ n

/-! ## CSV cells and rows

A cell of a parsed CSV row, as observed by the normalizer: the raw string and
the result of Python's `float(raw.replace(",", "."))` (`none` when that call
raises).  The two fields are coupled in reality; theorems never rely on an
inconsistent pairing, and concrete inputs instantiate them consistently. -/

structure Cell where
  raw : Str
  num : Option ℚ
deriving DecidableEq

abbrev Row := List (Str × Cell)

/-- `_extrair_float_safe` (main.py:2698): blank/zero-looking strings and
unparsable strings map to `0.0`, otherwise the parsed value. -/
def _extrair_float_safe (c : Cell) : ℚ :=
  if c.raw = [] ∨ c.raw ∈ [str "0", str "0.00", str "None", str "", str "0,00"] then 0
  else c.num.getD 0

/-! ## The schema normalizer `_extrair_dados_gerais` (main.py:2806)

The canonical fields a normalized record can carry.  The Python code stores
them in a dict; we model the dict as a partial map from `Campo` to `ℚ`. -/

inductive Campo where
  | patrimonio_liquido
  | cotas_emitidas
  | cotistas
  | cotistas_pf
  | dy_mes
  | rentabilidade_efetiva_mes
  | rentabilidade_patrimonial_mes
  | amortizacao_pct_mes
  | valor_ativo
  | vp_total_cotas
  | rendimentos_distribuir
  | taxa_adm_pct
  | taxa_custodia_pct
  | vp_cota
deriving DecidableEq

abbrev Dados := Campo → Option ℚ

def semDados : Dados := fun _ => none

/-- `dados[campo] = val` executed under `if campo not in dados` (the code always
guards its inserts this way). -/
def setSeAusente (d : Dados) (c : Campo) (v : ℚ) : Dados :=
  if d c = none then fun c' => if c' = c then some v else d c' else d

/-- Python dict lookup on an association list (first matching key wins; the
source dict has distinct keys). -/
def lookupCampo (k : Str) : List (Str × Campo) → Option Campo
  | [] => none
  | (a, b) :: rest => if a = k then some b else lookupCampo k rest

/-- The exact-name lookup table `map_direto` of `_extrair_dados_gerais`
(main.py:2814-2846). -/
def mapDiretoTabela : List (Str × Campo) := [
  (str "VL_PATRIM_LIQ", .patrimonio_liquido),
  (str "Patrimonio_Liquido", .patrimonio_liquido),
  (str "Total_Patrimonio_Liquido", .patrimonio_liquido),
  (str "Total_Necessidades_Liquidas", .patrimonio_liquido),
  (str "QT_COTAS", .cotas_emitidas),
  (str "NR_COTAS_EMITIDAS", .cotas_emitidas),
  (str "Quantidade_Cotas_Emitidas", .cotas_emitidas),
  (str "Cotas_Emitidas", .cotas_emitidas),
  (str "Quantidade_Cotas", .cotas_emitidas),
  (str "NR_COTST", .cotistas),
  (str "Total_Cotistas", .cotistas),
  (str "Numero_Cotistas", .cotistas),
  (str "Total_Numero_Cotistas", .cotistas),
  (str "Numero_Total_Cotistas", .cotistas),
  (str "Numero_Cotistas_Pessoa_Fisica", .cotistas_pf),
  (str "Percentual_Dividend_Yield_Mes", .dy_mes),
  (str "Percentual_Rentabilidade_Efetiva_Mes", .rentabilidade_efetiva_mes),
  (str "Percentual_Rentabilidade_Patrimonial_Mes", .rentabilidade_patrimonial_mes),
  (str "Percentual_Amortizacao_Cotas_Mes", .amortizacao_pct_mes),
  (str "Valor_Ativo", .valor_ativo),
  (str "Valor_Patrimonial_Cotas_Emitidas", .vp_total_cotas),
  (str "Rendimentos_Distribuir", .rendimentos_distribuir),
  (str "Percentual_Despesas_Taxa_Administracao", .taxa_adm_pct),
  (str "Percentual_Despesas_Agente_Custodiante", .taxa_custodia_pct)]

def map_direto (k : Str) : Option Campo := lookupCampo k mapDiretoTabela

/-- One iteration of the `for k, v in row.items()` loop of
`_extrair_dados_gerais`: exact-table branch, else the `elif` chain of
substring heuristics (all guarded by "field still unset"). -/
def extrairDadosGeraisPasso (d : Dados) (kv : Str × Cell) : Dados :=
  let k := kv.1
  let val := _extrair_float_safe kv.2
  match map_direto k with
  | some campo => if val ≠ 0 then setSeAusente d campo val else d
  | none =>
    let kl := lowerStr k
    if val = 0 then d
    else if d .patrimonio_liquido = none ∧ containsSub kl (str "patrim") = true ∧
        containsSub kl (str "liq") = true then
      setSeAusente d .patrimonio_liquido val
    else if d .cotas_emitidas = none ∧ containsSub kl (str "cota") = true ∧
        containsSub kl (str "emitid") = true ∧ containsSub kl (str "cotist") = false ∧
        100 < val then
      setSeAusente d .cotas_emitidas val
    else if d .cotistas = none ∧ containsSub kl (str "cotist") = true ∧
        (containsSub kl (str "total") = true ∨ containsSub kl (str "numero") = true) ∧
        val < 10000000 then
      setSeAusente d .cotistas val
    else d

/-- `_extrair_dados_gerais` (main.py:2806): single pass over the row applying
the exact table and, for unmapped columns, the substring heuristics; then the
derived `vp_cota` = `round(pl / cotas, 4)` when `pl and cotas and cotas > 0`. -/
def _extrair_dados_gerais (row : Row) : Dados :=
  let dados := row.foldl extrairDadosGeraisPasso semDados
  match dados .patrimonio_liquido, dados .cotas_emitidas with
  | some pl, some cotas =>
      if pl ≠ 0 ∧ cotas ≠ 0 ∧ 0 < cotas then
        setSeAusente dados .vp_cota (pyRound (pl / cotas) 4)
      else dados
  | _, _ => dados

/-! ## Python's stable ascending sort

`list.sort(key=...)` / `sorted(...)` is a stable ascending sort.  We model it
as insertion sort where a new element is placed after all existing elements
whose key is `≤` its key (which preserves the original order of ties). -/

def insort {α : Type} (le : α → α → Bool) (x : α) : List α → List α
  | [] => [x]
  | y :: ys => if le y x then y :: insort le x ys else x :: y :: ys

def pySort {α : Type} (le : α → α → Bool) (l : List α) : List α :=
  l.foldl (fun acc x => insort le x acc) []

theorem insort_perm {α : Type} (le : α → α → Bool) (x : α) (l : List α) :
    List.Perm (insort le x l) (x :: l) := by
  induction l with
  | nil => simp [insort]
  | cons y ys ih =>
    by_cases h : le y x = true
    · simp only [insort, if_pos h]
      exact List.Perm.trans (List.Perm.cons y ih) (List.Perm.swap x y ys)
    · simp [insort, h]

theorem foldl_insort_perm {α : Type} (le : α → α → Bool) (l acc : List α) :
    List.Perm (l.foldl (fun acc x => insort le x acc) acc) (acc ++ l) := by
  induction l generalizing acc with
  | nil => simp
  | cons x xs ih =>
    simp only [List.foldl_cons]
    refine List.Perm.trans (ih (insort le x acc)) ?_
    have h1 : List.Perm (insort le x acc ++ xs) ((x :: acc) ++ xs) :=
      (insort_perm le x acc).append_right xs
    refine h1.trans ?_
    simpa using List.perm_middle.symm

theorem pySort_perm {α : Type} (le : α → α → Bool) (l : List α) :
    List.Perm (pySort le l) l := by
  simpa [pySort] using foldl_insort_perm le l []

theorem pairwise_insort {α : Type} (le : α → α → Bool)
    (hTot : ∀ a b, le a b = true ∨ le b a = true)
    (hTrans : ∀ a b c, le a b = true → le b c = true → le a c = true)
    (x : α) (l : List α) (hl : l.Pairwise (fun a b => le a b = true)) :
    (insort le x l).Pairwise (fun a b => le a b = true) := by
  induction l with
  | nil => simp [insort]
  | cons y ys ih =>
    rcases List.pairwise_cons.mp hl with ⟨hy, hys⟩
    by_cases h : le y x = true
    · simp only [insort, if_pos h]
      refine List.pairwise_cons.mpr ⟨?_, ih hys⟩
      intro a ha
      rcases List.mem_cons.mp (((insort_perm le x ys).mem_iff).mp ha) with rfl | ha
      · exact h
      · exact hy a ha
    · simp only [insort, if_neg h]
      have hxy : le x y = true := (hTot x y).resolve_right (fun hc => h hc)
      refine List.pairwise_cons.mpr ⟨?_, hl⟩
      intro a ha
      rcases List.mem_cons.mp ha with rfl | ha
      · exact hxy
      · exact hTrans x y a hxy (hy a ha)

theorem pySort_pairwise {α : Type} (le : α → α → Bool)
    (hTot : ∀ a b, le a b = true ∨ le b a = true)
    (hTrans : ∀ a b c, le a b = true → le b c = true → le a c = true)
    (l : List α) : (pySort le l).Pairwise (fun a b => le a b = true) := by
  suffices h : ∀ acc, acc.Pairwise (fun a b => le a b = true) →
      (l.foldl (fun acc x => insort le x acc) acc).Pairwise (fun a b => le a b = true) by
    exact h [] (by simp)
  induction l with
  | nil => intro acc hacc; simpa using hacc
  | cons x xs ih =>
    intro acc hacc
    exact ih (insort le x acc) (pairwise_insort le hTot hTrans x acc hacc)

theorem pySort_nodup {α : Type} (le : α → α → Bool) {l : List α} (h : l.Nodup) :
    (pySort le l).Nodup := (pySort_perm le l).nodup_iff.mpr h

/-! ## `cvm_historico_vp` (main.py:2183): per-row extraction, dedup, sort

The per-row scan of the "geral" CSV (main.py:2250-2278) that finds net assets
(`pl`), issued units (`cotas`) and holder count, then builds a history point
when `pl and cotas and cotas > 0` (main.py:2280-2289). -/

structure ScanVp where
  pl : Option ℚ
  cotas : Option ℚ
  nr_cotistas : Option ℚ
deriving DecidableEq

/-- One iteration of the `for k, v in row.items()` scan (main.py:2255-2278).
Cells whose raw string is blank/zero-listed, or which fail to parse as a
float, are skipped. -/
def scanVpPasso (s : ScanVp) (kv : Str × Cell) : ScanVp :=
  if kv.2.raw = [] ∨ kv.2.raw ∈ [str "0", str "0.00", str "None", str ""] then s
  else
    match kv.2.num with
    | none => s
    | some val =>
      let k := kv.1
      let kl := lowerStr k
      let s1 :=
        if s.pl = none ∧ ((containsSub kl (str "patrim") = true ∧ containsSub kl (str "liq") = true)
            ∨ k ∈ [str "VL_PATRIM_LIQ", str "Patrimonio_Liquido", str "Total_Patrimonio_Liquido"]) then
          { s with pl := some val }
        else s
      let s2 :=
        if s1.cotas = none ∧ (k ∈ [str "QT_COTAS", str "NR_COTAS_EMITIDAS", str "Quantidade_Cotas_Emitidas"]
            ∨ (containsSub kl (str "cota") = true
               ∧ (containsSub kl (str "emitida") = true ∨ containsSub kl (str "qt") = true
                  ∨ containsSub kl (str "quant") = true)
               ∧ containsSub kl (str "cotist") = false)) ∧ 1000 < val then
          { s1 with cotas := some val }
        else s1
      if containsSub kl (str "cotist") = true ∨ k ∈ [str "NR_COTST", str "Numero_Cotistas"] then
        { s2 with nr_cotistas := some val }
      else s2

structure Ponto where
  data : Str
  patrimonio_liquido : ℚ
  quantidade_cotas : ℚ
  numero_cotistas : Option ℚ
  vp_cota : ℚ
  ano : ℤ
deriving DecidableEq

/-- The history point appended for one row (main.py:2280-2289): only when
`pl and cotas and cotas > 0`, with `vp_cota = round(pl / cotas, 4)`. -/
def extrairPontoHistorico (row : Row) (dt : Str) (ano : ℤ) : Option Ponto :=
  let s := row.foldl scanVpPasso ⟨none, none, none⟩
  match s.pl, s.cotas with
  | some pl, some cotas =>
      if pl ≠ 0 ∧ cotas ≠ 0 ∧ 0 < cotas then
        some ⟨dt, pl, cotas, s.nr_cotistas, pyRound (pl / cotas) 4, ano⟩
      else none
  | _, _ => none

/-- Dedup by `data` keeping the first occurrence (main.py:2292-2298). -/
def dedupPorData (pontos : List Ponto) : List Ponto :=
  pontos.foldl (fun acc p => if p.data ∈ acc.map Ponto.data then acc else acc ++ [p]) []

/-- `pontos_unicos` of `cvm_historico_vp` (main.py:2292-2299): dedup by `data`
then stable sort ascending by `data`. -/
def cvm_historico_vp_pontos (pontos : List Ponto) : List Ponto :=
  pySort (fun p q => strLe p.data q.data) (dedupPorData pontos)

/-- The summary variation of `cvm_historico_vp` (main.py:2301-2308). -/
def cvm_historico_vp_variacao (pontosUnicos : List Ponto) : Option ℚ :=
  match pontosUnicos.head?, pontosUnicos.getLast? with
  | some primeiro, some ultimo =>
      if 0 < primeiro.vp_cota then
        some (pyRound ((ultimo.vp_cota - primeiro.vp_cota) / primeiro.vp_cota * 100) 2)
      else none
  | _, _ => none

/-! ## `cvm_evolucao_patrimonial` (main.py:2880): period selection and summary -/

/-- Left fold dedup keeping first occurrences (Python `set` membership used to
deduplicate while preserving one representative per element). -/
def dedupStr (l : List Str) : List Str :=
  l.foldl (fun acc x => if x ∈ acc then acc else acc ++ [x]) []

/-- One year of the snapshot-selection loop (main.py:3013-3030): take the
year's December period when it exists, otherwise the year's last available
month, skipping anything already selected. -/
def passoAno (periodos : List Str) (sel : List Str) (a : Str) : List Str :=
  let dez := a ++ str "-12"
  if dez ∈ periodos ∧ dez ∉ sel then sel ++ [dez]
  else
    match ((pySort strLe periodos).filter (fun p => isPrefixC a p)).getLast? with
    | some ultimoMes => if ultimoMes ∉ sel then sel ++ [ultimoMes] else sel
    | none => sel

/-- The selection accumulated before the final sort (main.py:3008-3034),
for a nonempty sorted period list `p0 :: resto`: start from the earliest
period, fold the per-year step over the sorted distinct years, then add the
latest period if missing. -/
def selecaoBruta (periodos : List Str) (p0 : Str) (resto : List Str) : List Str :=
  let po := p0 :: resto
  let anos := pySort strLe (dedupStr (po.map (fun p => p.take 4)))
  let sel1 := anos.foldl (passoAno periodos) [p0]
  let ultimoPeriodo := po.getLast?.getD p0
  if ultimoPeriodo ∉ sel1 then sel1 ++ [ultimoPeriodo] else sel1

/-- Snapshot selection of `cvm_evolucao_patrimonial` (main.py:3005-3037):
first available period, then for every year its December period or else that
year's last available month (each added only if not already included), then
the last available period; finally sorted ascending by period.  Snapshots are
keyed bijectively by their period string, so the selection is modelled on the
period keys (`todos_snapshots` is a dict keyed by `periodo`). -/
def selecionarPeriodos (periodos : List Str) : List Str :=
  match pySort strLe periodos with
  | [] => []
  | p0 :: resto => pySort strLe (selecaoBruta periodos p0 resto)

/-- The period that the selection loop retains for a given year: December when
available, else the year's last available month in sorted order. -/
def escolhaAno (periodos : List Str) (a : Str) : Option Str :=
  if a ++ str "-12" ∈ periodos then some (a ++ str "-12")
  else ((pySort strLe periodos).filter (fun p => isPrefixC a p)).getLast?

/-- The `variacao_vp_pct` summary of `cvm_evolucao_patrimonial`
(main.py:3072-3081): requires `vp_inicio and vp_fim and vp_inicio > 0`. -/
def resumoVariacaoVp (dgInicio dgFim : Dados) : Option ℚ :=
  match dgInicio .vp_cota, dgFim .vp_cota with
  | some vi, some vf =>
      if vi ≠ 0 ∧ vf ≠ 0 ∧ 0 < vi then some (pyRound ((vf - vi) / vi * 100) 2)
      else none
  | _, _ => none

/-! ## `_filtrar_por_cnpj` (main.py:1187)

Rows as produced by `csv.DictReader`: ordered column-name/value pairs of raw
strings (a `None` value reads as the empty string via `str(col_val or "")`). -/

abbrev RowS := List (Str × Str)

/-- Row-level match of `_filtrar_por_cnpj`: first a pass over columns whose
cleaned name contains "cnpj", then the fallback pass over columns whose
stripped value looks like a tax ID (contains "/" or has exactly 14 digits);
in both passes the comparison is `digits(value) in cnpjs_busca`. -/
def matchesCnpjRow (busca : List Str) (row : RowS) : Bool :=
  let pass1 := row.any (fun nv =>
    let colClean := lowerStr ((stripStr nv.1).filter (fun c => c ≠ '﻿'))
    containsSub colClean (str "cnpj") && decide (digitsOf (stripStr nv.2) ∈ busca))
  if pass1 then true
  else row.any (fun nv =>
    let valStr := stripStr nv.2
    (containsSub valStr (str "/") || decide ((digitsOf valStr).length = 14)) &&
    decide (digitsOf valStr ∈ busca))

/-- `_filtrar_por_cnpj` (main.py:1187): keep the rows matching the digits-only
canonical form of the filter tax ID (or of any class tax ID). -/
def _filtrar_por_cnpj (rows : List RowS) (cnpj : Str) (cnpjs_classe : Option (List Str)) :
    List RowS :=
  let cnpj_limpo := digitsOf cnpj
  let cnpjs_busca := cnpj_limpo ::
    (match cnpjs_classe with
     | some cs => (cs.map digitsOf).filter (fun c => c ≠ [])
     | none => [])
  if cnpj_limpo = [] then []
  else rows.filter (fun row => matchesCnpjRow cnpjs_busca row)

theorem whitespace_not_digit {c : Char} (h : c.isWhitespace = true) : c.isDigit = false := by
  simp [Char.isWhitespace] at h
  rcases h with ((h | h) | h) | h <;> subst h <;> decide

theorem digitsOf_dropWhileWs (s : Str) :
    digitsOf (s.dropWhile Char.isWhitespace) = digitsOf s := by
  induction s with
  | nil => rfl
  | cons c cs ih =>
    by_cases h : c.isWhitespace = true
    · have hd : c.isDigit = false := whitespace_not_digit h
      simp only [List.dropWhile_cons, h, if_true]
      rw [ih]
      simp [digitsOf, List.filter_cons, hd]
    · simp [List.dropWhile_cons, h]

theorem digitsOf_reverse (s : Str) : digitsOf s.reverse = (digitsOf s).reverse := by
  simp [digitsOf, List.filter_reverse]

theorem digitsOf_stripStr (s : Str) : digitsOf (stripStr s) = digitsOf s := by
  unfold stripStr
  rw [digitsOf_reverse, digitsOf_dropWhileWs, digitsOf_reverse, digitsOf_dropWhileWs,
    List.reverse_reverse]

/-! ## `buscar_fnet` (main.py:155): multi-variant document search

The POST payload of one attempt.  The five variants (main.py:181-301) share
all fields except `cnpj`, `codigoNegociacao` and `tipoFundo`; `l` is
`str(max_docs)` and is modelled as the number itself. -/

structure FnetPayload where
  d : Str
  s : Str
  l : ℕ
  o0_dataEntrega : Str
  tipoFundo : Str
  idCategoriaDocumento : Str
  idTipoDocumento : Str
  idEspecieDocumento : Str
  situacao : Str
  cnpj : Str
  dataInicial : Str
  dataFinal : Str
  idFundo : Str
  razaoSocial : Str
  codigoNegociacao : Str
deriving DecidableEq

/-- The fields shared by all five payload dicts of `buscar_fnet`. -/
def fnetPayloadBase (maxDocs : ℕ) : FnetPayload where
  d := str "0"
  s := str "0"
  l := maxDocs
  o0_dataEntrega := str "desc"
  tipoFundo := str "1"
  idCategoriaDocumento := str "0"
  idTipoDocumento := str "0"
  idEspecieDocumento := str "0"
  situacao := str "A"
  cnpj := str ""
  dataInicial := str ""
  dataFinal := str ""
  idFundo := str "0"
  razaoSocial := str ""
  codigoNegociacao := str ""

/-- The ordered attempt list `tentativas` of `buscar_fnet` (main.py:181-301):
1 CNPJ digits-only, 2 CNPJ as given, 3 CNPJ digits-only plus ticker,
4 ticker alone, 5 CNPJ digits-only with `tipoFundo = "0"`.  Variants 1, 3, 5
require a nonempty digits-only CNPJ; variant 2 requires a truthy `cnpj`. -/
def buscar_fnet_tentativas (ticker : Str) (cnpj : Option Str) (maxDocs : ℕ) :
    List (Str × FnetPayload) :=
  let cnpj_limpo : Str := match cnpj with
    | some c => if c ≠ [] then digitsOf c else []
    | none => []
  let base := fnetPayloadBase maxDocs
  (if cnpj_limpo ≠ [] then
    [(str "CNPJ sem formatação", { base with cnpj := cnpj_limpo })] else []) ++
  (match cnpj with
   | some c => if c ≠ [] then [(str "CNPJ formatado", { base with cnpj := c })] else []
   | none => []) ++
  (if cnpj_limpo ≠ [] then
    [(str "CNPJ limpo + ticker",
      { base with cnpj := cnpj_limpo, codigoNegociacao := ticker })] else []) ++
  [(str "Ticker", { base with codigoNegociacao := ticker })] ++
  (if cnpj_limpo ≠ [] then
    [(str "CNPJ limpo sem tipo", { base with tipoFundo := str "0", cnpj := cnpj_limpo })]
   else [])

/-- One JSON result row of the search endpoint, as read by `buscar_fnet`
(`item.get("id")` may be missing; the other `get`s default to `""`). -/
structure FnetItem where
  id : Option Str
  descricaoCategoria : Str
  descricaoTipo : Str
  dataEntrega : Str
  dataReferencia : Str
  situacao : Str
deriving DecidableEq

/-- The upstream response to one POST: an exception, or a response with an
`ok` flag and a body that either fails JSON decoding (`none`) or yields the
`data` rows. -/
inductive FnetResp where
  | exn
  | resp (ok : Bool) (corpo : Option (List FnetItem))
deriving DecidableEq

/-- Python `f"...{doc_id}"` where `doc_id` may be `None`. -/
def mostrarId (o : Option Str) : Str :=
  match o with
  | some s => s
  | none => str "None"

structure FnetDoc where
  id : Option Str
  categoria : Str
  tipo : Str
  data_entrega : Str
  data_referencia : Str
  status : Str
  url_download : Str
  url_original : Str
  fonte : Str
  estrategia_usada : Str
deriving DecidableEq

/-- The document dict built per result row (main.py:326-340), tagged with the
attempt label `estrategia_usada`. -/
def fnetDocDeItem (nome : Str) (item : FnetItem) : FnetDoc where
  id := item.id
  categoria := item.descricaoCategoria
  tipo := item.descricaoTipo
  data_entrega := item.dataEntrega
  data_referencia := item.dataReferencia
  status := item.situacao
  url_download := str "/api/download/fnet/" ++ mostrarId item.id
  url_original := str "https://fnet.bmfbovespa.com.br/fnet/publico/exibirDocumento?id=" ++ mostrarId item.id
  fonte := str "fnet"
  estrategia_usada := nome

/-- The `for t in tentativas` loop (main.py:305-353).  `oracle i` is the
response to the `i`-th POST performed; the second component of the result is
the number of POSTs performed.  An exception, a non-2xx status, a non-JSON
body, an empty `data` array, and an empty built list each fall through to the
next attempt. -/
def buscarFnetLoop (ts : List (Str × FnetPayload)) (oracle : ℕ → FnetResp) (maxDocs : ℕ)
    (i : ℕ) : List FnetDoc × ℕ :=
  match ts with
  | [] => ([], i)
  | (nome, _) :: rest =>
    match oracle i with
    | .exn => buscarFnetLoop rest oracle maxDocs (i + 1)
    | .resp ok corpo =>
      if ok = false then buscarFnetLoop rest oracle maxDocs (i + 1)
      else
        match corpo with
        | none => buscarFnetLoop rest oracle maxDocs (i + 1)
        | some items =>
          if items = [] then buscarFnetLoop rest oracle maxDocs (i + 1)
          else
            let docs := (items.take maxDocs).map (fnetDocDeItem nome)
            if docs = [] then buscarFnetLoop rest oracle maxDocs (i + 1)
            else (docs, i + 1)

/-- `buscar_fnet` (main.py:155-353): run the attempts in order; on no success
return the empty list (never an exception). -/
def buscar_fnet (ticker : Str) (cnpj : Option Str) (maxDocs : ℕ) (oracle : ℕ → FnetResp) :
    List FnetDoc × ℕ :=
  buscarFnetLoop (buscar_fnet_tentativas ticker cnpj maxDocs) oracle maxDocs 0

/-- A successful attempt: 2xx response, JSON body, nonempty `data` array. -/
def respSucesso (r : FnetResp) : Bool :=
  match r with
  | .resp true (some items) => !items.isEmpty
  | _ => false

/-- The `data` rows of a response (empty for failures). -/
def respItens (r : FnetResp) : List FnetItem :=
  match r with
  | .resp _ (some items) => items
  | _ => []

/-! ## `descobrir_dados_fii` (main.py:452): tiered entity resolution -/

/-- Pair helper for the embedded directory below. -/
def fp (a b : String) : Str × Str := (str a, str b)

/-- The embedded static directory `FII_CNPJ_DB` (main.py:384-449). -/
def FII_CNPJ_DB : List (Str × Str) := [
  fp "ABCP11" "01.201.140/0001-90", fp "AFHI11" "36.642.293/0001-58",
  fp "AIEC11" "35.765.826/0001-26", fp "ALZR11" "28.737.771/0001-85",
  fp "BARI11" "29.267.567/0001-00", fp "BBFO11" "37.180.091/0001-02",
  fp "BBPO11" "14.410.722/0001-29", fp "BCFF11" "11.026.627/0001-38",
  fp "BCRI11" "22.219.335/0001-38", fp "BICE11" "39.332.032/0001-20",
  fp "BICR11" "34.007.109/0001-72", fp "BLCA11" "41.076.748/0001-55",
  fp "BLMC11" "38.294.221/0001-92", fp "BLMG11" "34.081.637/0001-71",
  fp "BLMO11" "34.895.894/0001-47", fp "BLMR11" "36.368.869/0001-30",
  fp "BPFF11" "17.324.357/0001-28", fp "BPML11" "33.046.142/0001-49",
  fp "BRCO11" "20.748.515/0001-81", fp "BRCR11" "08.924.783/0001-01",
  fp "BTAL11" "36.642.244/0001-15", fp "BTCI11" "09.552.812/0001-14",
  fp "BTLG11" "11.839.593/0001-09", fp "BTRA11" "41.076.607/0001-32",
  fp "CACR11" "32.065.364/0001-46", fp "CCME11" "36.501.297/0001-10",
  fp "CLIN11" "36.435.419/0001-89", fp "CPTS11" "18.979.895/0001-13",
  fp "CVBI11" "28.729.197/0001-13", fp "DEVA11" "39.585.226/0001-72",
  fp "DMAC11" "39.553.153/0001-63", fp "EVBI11" "27.437.717/0001-88",
  fp "FAED11" "11.179.118/0001-45", fp "FAMB11" "03.767.538/0001-15",
  fp "FCFL11" "07.413.792/0001-16", fp "FEXC11" "09.552.812/0001-14",
  fp "FIIB11" "04.196.036/0001-50", fp "FIIP11" "15.862.638/0001-37",
  fp "FLMA11" "10.375.382/0001-03", fp "FLRP11" "04.715.266/0001-05",
  fp "GARE11" "37.087.810/0001-37", fp "GGRC11" "19.258.831/0001-15",
  fp "GTWR11" "29.429.083/0001-55", fp "HABT11" "31.894.369/0001-19",
  fp "HCTR11" "35.652.102/0001-76", fp "HFOF11" "17.324.357/0001-28",
  fp "HGBS11" "08.431.747/0001-06", fp "HGCR11" "11.160.521/0001-22",
  fp "HGLG11" "11.728.688/0001-47", fp "HGPO11" "11.260.134/0001-68",
  fp "HGRE11" "09.072.017/0001-29", fp "HGRU11" "29.641.226/0001-53",
  fp "HLOG11" "29.855.933/0001-60", fp "HSAF11" "38.722.556/0001-35",
  fp "HSLG11" "37.549.747/0001-63", fp "HSML11" "14.411.016/0001-93",
  fp "HTMX11" "08.706.065/0001-69", fp "IRDM11" "28.830.325/0001-10",
  fp "ITIT11" "11.713.758/0001-64", fp "ITUB11" "60.872.504/0001-23",
  fp "JSAF11" "42.083.992/0001-50", fp "JSRE11" "13.371.132/0001-71",
  fp "KCRE11" "36.501.125/0001-07", fp "KFOF11" "37.552.756/0001-74",
  fp "KISU11" "37.145.425/0001-01", fp "KNCR11" "16.706.958/0001-32",
  fp "KNHY11" "31.024.923/0001-72", fp "KNIP11" "28.236.089/0001-24",
  fp "KNRI11" "12.005.956/0001-65", fp "KNSC11" "35.864.448/0001-52",
  fp "LGCP11" "36.092.901/0001-31", fp "LVBI11" "28.830.341/0001-12",
  fp "MALL11" "26.499.481/0001-32", fp "MCCI11" "34.829.946/0001-05",
  fp "MCHF11" "36.502.115/0001-64", fp "MFII11" "17.068.108/0001-30",
  fp "MGFF11" "29.216.463/0001-52", fp "MORE11" "31.688.488/0001-00",
  fp "MXRF11" "11.049.627/0001-03", fp "NCHB11" "39.403.455/0001-16",
  fp "NEWL11" "31.751.845/0001-45", fp "NSLU11" "10.869.155/0001-94",
  fp "OUJP11" "26.091.656/0001-50", fp "PATC11" "30.048.651/0001-95",
  fp "PATL11" "30.048.651/0001-95", fp "PLCR11" "36.501.143/0001-80",
  fp "PORD11" "32.537.687/0001-46", fp "PVBI11" "35.652.195/0001-43",
  fp "RBFF11" "14.410.788/0001-61", fp "RBRF11" "29.467.977/0001-03",
  fp "RBRL11" "29.532.427/0001-18", fp "RBRP11" "22.044.201/0001-22",
  fp "RBRR11" "29.467.977/0001-03", fp "RBRY11" "34.098.402/0001-09",
  fp "RBVA11" "15.769.670/0001-44", fp "RCRB11" "13.584.584/0001-31",
  fp "RECR11" "30.173.206/0001-03", fp "RECT11" "32.274.163/0001-59",
  fp "RVBI11" "35.958.879/0001-02", fp "RZAK11" "32.274.163/0001-59",
  fp "RZAT11" "36.501.297/0001-10", fp "RZTR11" "32.274.163/0001-59",
  fp "SADI11" "36.098.375/0001-83", fp "SARE11" "32.903.702/0001-71",
  fp "SNCI11" "30.244.393/0001-27", fp "SNFF11" "26.091.598/0001-15",
  fp "SPTW11" "11.202.769/0001-61", fp "TEPP11" "28.830.325/0001-10",
  fp "TGAR11" "28.737.818/0001-43", fp "TORD11" "32.537.637/0001-49",
  fp "TRBL11" "30.023.897/0001-89", fp "TRXF11" "30.289.030/0001-36",
  fp "URPR11" "36.201.229/0001-62", fp "VCJR11" "31.137.262/0001-80",
  fp "VCRI11" "41.248.843/0001-72", fp "VGHF11" "36.771.692/0001-19",
  fp "VGIP11" "36.771.579/0001-02", fp "VGIR11" "32.352.888/0001-02",
  fp "VILG11" "24.853.044/0001-22", fp "VINO11" "31.466.011/0001-13",
  fp "VISC11" "17.554.274/0001-25", fp "VRTA11" "11.839.908/0001-72",
  fp "XPCI11" "28.516.301/0001-91", fp "XPLG11" "26.502.794/0001-85",
  fp "XPML11" "28.757.546/0001-00", fp "XPPR11" "30.654.849/0001-40",
  fp "XPSF11" "25.561.704/0001-81"]

/-- Python dict lookup on an association list with distinct keys. -/
def lookupStr (k : Str) : List (Str × Str) → Option Str
  | [] => none
  | (a, b) :: rest => if a = k then some b else lookupStr k rest

/-- What the scraping tier observes of one informational page: the HTTP `ok`
flag, the first `\d2.\d3.\d3/\d4-\d2` tax-ID pattern match of the body, and
the suffix-stripped text of the first `h1`/`h2`/`title` heading longer than 5
characters (regex search and HTML parsing are library boundaries, modelled as
oracle observations). -/
structure PageObs where
  ok : Bool
  cnpjMatch : Option Str
  razaoHeading : Option Str
deriving DecidableEq

inductive ScrapeResp where
  | exn
  | page (p : PageObs)
deriving DecidableEq

/-- What the bulk-directory tier (`cad_fi.csv`) observes: an exception, or a
response with an `ok` flag and the tax-ID pattern extracted from the first
line that contains the ticker and a pattern match (`none` when no such
line exists). -/
inductive BulkResp where
  | exn
  | resp (ok : Bool) (cnpjDaLinha : Option Str)
deriving DecidableEq

/-- The upstream environment of one resolution call: the three scraped sites
(Investidor10, Funds Explorer, Status Invest, in that order) and the CVM bulk
registry. -/
structure FiiEnv where
  sites : ℕ → ScrapeResp
  bulk : BulkResp

structure DadosFii where
  cnpj : Option Str
  razao_social : Option Str
  cod_cvm : Option Str
deriving DecidableEq

/-- The scraping loop of `descobrir_dados_fii` (main.py:476-499): stop at the
first page whose body yields a tax-ID pattern; a request exception or a
non-2xx response falls through to the next site.  Counts requests made. -/
def descobrirFiiScrape (sites : List ℕ) (env : FiiEnv) (calls : ℕ) : Option DadosFii × ℕ :=
  match sites with
  | [] => (none, calls)
  | i :: rest =>
    match env.sites i with
    | .exn => descobrirFiiScrape rest env (calls + 1)
    | .page p =>
      if p.ok then
        match p.cnpjMatch with
        | some c =>
            (some { cnpj := some c, razao_social := p.razaoHeading, cod_cvm := none },
             calls + 1)
        | none => descobrirFiiScrape rest env (calls + 1)
      else descobrirFiiScrape rest env (calls + 1)

/-- `descobrir_dados_fii` (main.py:452-518): static directory, then scraping,
then the bulk registry; exhausting all tiers returns a record with `cnpj`
`none` rather than failing.  The second component counts the network requests
performed by this call (the function keeps no cache of its own). -/
def descobrir_dados_fii (ticker : Str) (env : FiiEnv) : DadosFii × ℕ :=
  let ticker_upper := stripStr (upperStr ticker)
  match lookupStr ticker_upper FII_CNPJ_DB with
  | some c => ({ cnpj := some c, razao_social := none, cod_cvm := none }, 0)
  | none =>
    match descobrirFiiScrape [0, 1, 2] env 0 with
    | (some r, calls) => (r, calls)
    | (none, calls) =>
      match env.bulk with
      | .exn => ({ cnpj := none, razao_social := none, cod_cvm := none }, calls + 1)
      | .resp ok c =>
        if ok then
          match c with
          | some cn => ({ cnpj := some cn, razao_social := none, cod_cvm := none }, calls + 1)
          | none => ({ cnpj := none, razao_social := none, cod_cvm := none }, calls + 1)
        else ({ cnpj := none, razao_social := none, cod_cvm := none }, calls + 1)

/-! ## `detectar_tipo_ativo` (main.py:97) -/

inductive Tipo where
  | fii
  | acao
deriving DecidableEq

def KNOWN_FIIS : List Str := [str "BLCA11", str "HGLG11", str "MXRF11", str "KNRI11",
  str "KNCR11", str "XPLG11", str "BTLG11", str "VISC11", str "PVBI11", str "LVBI11",
  str "BRCO11", str "BRCR11", str "HGRE11", str "XPML11", str "BCFF11", str "RECR11",
  str "IRDM11", str "CPTS11", str "VGIP11", str "RBRR11", str "HSML11", str "RBRF11",
  str "VILG11", str "HFOF11", str "TRXF11", str "JSRE11", str "VRTA11", str "CVBI11",
  str "BLMG11", str "BLMO11", str "BLMR11", str "BLMC11", str "RVBI11", str "PATC11",
  str "PATL11", str "GARE11", str "RZTR11", str "VGHF11", str "TGAR11", str "RCRB11",
  str "GTWR11", str "SPTW11", str "XPCM11", str "VINO11", str "DEVA11", str "HCTR11",
  str "SNCI11", str "RBVA11", str "RZAK11", str "CLIN11", str "CCME11", str "BTAL11",
  str "BTCI11", str "BTRA11", str "GGRC11", str "BBPO11"]

def KNOWN_UNITS : List Str := [str "BPAC11", str "KLBN11", str "TAEE11", str "SAPR11",
  str "SANB11", str "SULA11", str "ENGI11", str "AURE11"]

/-- Python `re.sub(r"\d+[B]?$", "", t)`: strip a trailing run of digits
optionally followed by `B` (no change when the pattern does not match). -/
def parteAlfaDe (t : Str) : Str :=
  let r := t.reverse
  let r1 := if r.head? = some 'B' then r.tail else r
  if (r1.head?.map Char.isDigit).getD false then (r1.dropWhile Char.isDigit).reverse
  else t

/-- `detectar_tipo_ativo` (main.py:97-112). -/
def detectar_tipo_ativo (ticker0 : Str) : Tipo :=
  let ticker := stripStr (upperStr ticker0)
  if ticker ∈ KNOWN_FIIS then .fii
  else if ticker ∈ KNOWN_UNITS then .acao
  else
    let sufixo_num := (ticker.dropWhile (fun c => decide ('A' ≤ c ∧ c ≤ 'Z'))).filter
      (fun c => c ≠ 'B')
    if sufixo_num ∈ [str "3", str "4", str "5", str "6"] then .acao
    else if sufixo_num = str "11" ∧ (parteAlfaDe ticker).length = 4 then .fii
    else if sufixo_num ∈ [str "11B", str "13"] then .fii
    else .acao

/-! ## `_baixar_csv_cvm_fii` (main.py:1136): yearly bulk-archive ingest

What the code observes of one zip entry: its name, the result of
`raw.decode("utf-8-sig")` (`none` on `UnicodeDecodeError`) and the result of
`raw.decode("latin-1", errors="replace")` (which never fails). -/

structure ZipEntry where
  nome : Str
  utf8 : Option Str
  latin1 : Str
deriving DecidableEq

structure ZipContent where
  tamanho : ℕ
  entradas : Option (List ZipEntry)

inductive DownloadResp where
  | exn
  | resp (content : ZipContent)

/-- The tagged result of `_baixar_csv_cvm_fii`: the three `{"erro": ...}`
dicts of the source (download failure, size below the 100-byte floor, zip/CSV
processing failure), or the table map.  A success key is always a `*.csv`
entry name and therefore never the literal key `"erro"`. -/
inductive CvmCsvResult where
  | erroDownload
  | erroTamanho (n : ℕ)
  | erroZip
  | ok (tabelas : List (Str × List RowS))
deriving DecidableEq

def splitOnChar (sep : Char) : Str → List Str
  | [] => [[]]
  | c :: rest =>
    match splitOnChar sep rest with
    | [] => [[]]
    | h :: t => if c = sep then [] :: h :: t else (c :: h) :: t

def endsWith (suf s : Str) : Bool := isPrefixC suf.reverse s.reverse

/-- `csv.DictReader(io.StringIO(texto), delimiter=";")` (main.py:1176-1177),
simplified to splitting on newlines and semicolons (quoting elided): the first
row is the header; each later row is the column-name/value pairing. -/
def parseCsvSemicolon (texto : Str) : List RowS :=
  let linhas := (splitOnChar '\n' texto).filter (fun l => l ≠ [])
  match linhas with
  | [] => []
  | cab :: resto =>
    let header := splitOnChar ';' cab
    resto.map (fun l => header.zip (splitOnChar ';' l))

/-- UTF-8 first, Latin-1 on `UnicodeDecodeError` (main.py:1170-1174). -/
def decodificarEntrada (e : ZipEntry) : Str :=
  match e.utf8 with
  | some t => t
  | none => e.latin1

/-- `_baixar_csv_cvm_fii` (main.py:1136-1184).  The memoization layer
(`CVM_CSV_CACHE`) is elided: it returns the same value that a fresh
computation produces. -/
def _baixar_csv_cvm_fii (download : DownloadResp) : CvmCsvResult :=
  match download with
  | .exn => .erroDownload
  | .resp content =>
    if content.tamanho < 100 then .erroTamanho content.tamanho
    else
      match content.entradas with
      | none => .erroZip
      | some es =>
        .ok ((es.filter (fun e => endsWith (str ".csv") e.nome)).map
          (fun e => (e.nome, parseCsvSemicolon (decodificarEntrada e))))

def ehErro (r : CvmCsvResult) : Bool :=
  match r with
  | .ok _ => false
  | _ => true

/-- The year loop of `cvm_informe_mensal` (main.py:1318-1348): try each year
in order, skip a year whose result carries `"erro"`, and stop at the first
year in which some CSV has rows for the fund's tax ID. -/
def informeAnoEscolhido (anos : List ℤ) (fetch : ℤ → CvmCsvResult) (cnpj : Str) : Option ℤ :=
  anos.find? (fun a =>
    match fetch a with
    | .ok ts => ts.any (fun t => !(_filtrar_por_cnpj t.2 cnpj none).isEmpty)
    | _ => false)

/-! ## The module cache and the `documentos`/`indicadores` endpoints
(main.py:133-148, 829-896, 1073-1098)

The single module dict `_cache` holds entries under the disjoint string keys
`f"docs:{ticker}:{max_docs}"` and `f"ind:{ticker}"`; the key shapes are
modelled as an inductive type, the stored objects as a sum. -/

inductive CacheKey where
  | docs (ticker : Str) (maxDocs : ℕ)
  | ind (ticker : Str)
deriving DecidableEq

def tipoLabel (t : Tipo) : Str :=
  match t with
  | .fii => str "FII"
  | .acao => str "Ação"

/-- The response of `listar_documentos` (main.py:882-892); the wall-clock
`consultado_em` string is elided (no claim observes it). -/
structure DocsResult where
  ticker : Str
  tipo : Tipo
  label : Str
  cnpj : Option Str
  razao_social : Option Str
  total_documentos : ℕ
  documentos : List FnetDoc
  aviso : Option Str
deriving DecidableEq

/-- The response of `indicadores` (main.py:1089-1095), with the scraped
indicator payload opaque. -/
structure IndResult where
  ticker : Str
  tipo : Tipo
  label : Str
  dados : List (Str × Str)
deriving DecidableEq

inductive CacheVal where
  | docsR (r : DocsResult)
  | indR (r : IndResult)
deriving DecidableEq

def Cache := CacheKey → Option (ℤ × CacheVal)

/-- `cache_get` (main.py:138-144): valid entry within `CACHE_TTL = 600`
seconds, else miss; reading an expired entry deletes it. -/
def cache_get (cache : Cache) (key : CacheKey) (now : ℤ) : Option CacheVal × Cache :=
  match cache key with
  | some (ts, dat) =>
      if now - ts < 600 then (some dat, cache)
      else (none, fun k => if k = key then none else cache k)
  | none => (none, cache)

/-- `cache_set` (main.py:147-148). -/
def cache_set (cache : Cache) (key : CacheKey) (dat : CacheVal) (now : ℤ) : Cache :=
  fun k => if k = key then some (now, dat) else cache k

/-- The observable value of a key (what a subsequent `cache_get` yields). -/
def cacheLookup (cache : Cache) (key : CacheKey) (now : ℤ) : Option CacheVal :=
  (cache_get cache key now).1

/-- Python `x or default` for an optional string (`None` and `""` falsy). -/
def pyOrStr (o : Option Str) (dflt : Str) : Str :=
  match o with
  | some s => if s = [] then dflt else s
  | none => dflt

/-- The degraded-search notice of `listar_documentos` (main.py:865-871),
naming the tax ID and legal name that were tried. -/
def erro_fnet_msg (ticker : Str) (cnpj razao : Option Str) : Str :=
  str "FNET não retornou documentos para " ++ ticker ++
  str ". Dados usados na busca: CNPJ=" ++ pyOrStr cnpj (str "não encontrado") ++
  str ", Razão Social=" ++ pyOrStr razao (str "não encontrada") ++
  str ". Possíveis causas: ticker incorreto, FNET temporariamente fora do ar, ou o fundo não possui documentos publicados."

/-- The upstream environment of one `listar_documentos` call: the resolver
tiers, the FNET search endpoint, and (for equities) the B3 document list
(whose dicts are modelled opaquely with the same record type). -/
structure ListarEnv where
  fii : FiiEnv
  fnet : ℕ → FnetResp
  b3 : List FnetDoc

/-- The optional per-category filter of `listar_documentos` (main.py:879-880):
applied only when `categoria` is truthy. -/
def filtrarCategoria (categoria : Option Str) (docs : List FnetDoc) : List FnetDoc :=
  match categoria with
  | some cat =>
      if cat ≠ [] then
        docs.filter (fun d => containsSub (lowerStr d.categoria) (lowerStr cat))
      else docs
  | none => docs

/-- The freshly computed response of `listar_documentos` on a cache miss
(main.py:848-892): the FII branch resolves the entity and searches FNET
(setting the `aviso` notice when the search comes back empty); the equity
branch takes the B3 documents; then the optional category filter.
(`buscar_fnet` also receives `razao_social` in the source, but never reads
it.) -/
def listarResultadoFresco (env : ListarEnv) (ticker : Str) (maxDocs : ℕ)
    (categoria : Option Str) : DocsResult :=
  let tipo := detectar_tipo_ativo ticker
  let quad :=
    match tipo with
    | .fii =>
      let dados := (descobrir_dados_fii ticker env.fii).1
      let fnetDocs := (buscar_fnet ticker dados.cnpj maxDocs env.fnet).1
      if fnetDocs ≠ [] then (fnetDocs, dados.cnpj, dados.razao_social, none)
      else ([], dados.cnpj, dados.razao_social,
            some (erro_fnet_msg ticker dados.cnpj dados.razao_social))
    | .acao => (env.b3, none, none, none)
  let docs := filtrarCategoria categoria quad.1
  { ticker := ticker, tipo := tipo, label := tipoLabel tipo, cnpj := quad.2.1,
    razao_social := quad.2.2.1, total_documentos := docs.length, documentos := docs,
    aviso := quad.2.2.2 }

/-- The tail of `listar_documentos` on a cache miss: return the fresh
response, writing it to the cache only when its document list is nonempty
(main.py:894-896). -/
def listar_documentos_calcular (env : ListarEnv) (ticker : Str) (maxDocs : ℕ)
    (categoria : Option Str) (now : ℤ) (c1 : Cache) : CacheVal × Cache :=
  let r := listarResultadoFresco env ticker maxDocs categoria
  if r.documentos ≠ [] then
    (CacheVal.docsR r, cache_set c1 (CacheKey.docs ticker maxDocs) (.docsR r) now)
  else (CacheVal.docsR r, c1)

/-- `listar_documentos` (main.py:829-896). -/
def listar_documentos (env : ListarEnv) (ticker0 : Str) (maxDocs : ℕ)
    (categoria : Option Str) (now : ℤ) (cache : Cache) : CacheVal × Cache :=
  let ticker := stripStr (upperStr ticker0)
  match cache_get cache (CacheKey.docs ticker maxDocs) now with
  | (some v, c1) => (v, c1)
  | (none, c1) => listar_documentos_calcular env ticker maxDocs categoria now c1

theorem filtrarCategoria_nil (categoria : Option Str) : filtrarCategoria categoria [] = [] := by
  rcases categoria with _ | cat
  · rfl
  · dsimp only [filtrarCategoria]
    split_ifs <;> rfl

/-- `indicadores` (main.py:1073-1098): computes and caches unconditionally. -/
def indicadores (ind : Str → List (Str × Str)) (ticker0 : Str) (now : ℤ) (cache : Cache) :
    CacheVal × Cache :=
  let ticker := stripStr (upperStr ticker0)
  let tipo := detectar_tipo_ativo ticker
  let key := CacheKey.ind ticker
  match cache_get cache key now with
  | (some v, c1) => (v, c1)
  | (none, c1) =>
    let r : IndResult :=
      { ticker := ticker, tipo := tipo, label := tipoLabel tipo, dados := ind ticker }
    (CacheVal.indR r, cache_set c1 key (.indR r) now)

/-! ## Spec-side two-phase normalizer (for comparison with the source)

`spec.md` §4.3 describes the normalizer as two phases: "(1) for every column
in the row, check an exact-match lookup table …; (2) for any canonical field
still unset after the exact table, apply a small ordered set of substring
heuristics".  This definition follows the spec's words (the heuristics of the
source, run as a second pass after the whole exact table); it is *not*
translated from the source and exists only to be compared with
`_extrair_dados_gerais`. -/

def extrairDadosGeraisSpecExato (d : Dados) (kv : Str × Cell) : Dados :=
  let val := _extrair_float_safe kv.2
  match map_direto kv.1 with
  | some campo => if val ≠ 0 then setSeAusente d campo val else d
  | none => d

def extrairDadosGeraisSpecHeuristica (d : Dados) (kv : Str × Cell) : Dados :=
  let kl := lowerStr kv.1
  let val := _extrair_float_safe kv.2
  if val = 0 then d
  else if d .patrimonio_liquido = none ∧ containsSub kl (str "patrim") = true ∧
      containsSub kl (str "liq") = true then
    setSeAusente d .patrimonio_liquido val
  else if d .cotas_emitidas = none ∧ containsSub kl (str "cota") = true ∧
      containsSub kl (str "emitid") = true ∧ containsSub kl (str "cotist") = false ∧
      100 < val then
    setSeAusente d .cotas_emitidas val
  else if d .cotistas = none ∧ containsSub kl (str "cotist") = true ∧
      (containsSub kl (str "total") = true ∨ containsSub kl (str "numero") = true) ∧
      val < 10000000 then
    setSeAusente d .cotistas val
  else d

/-- The normalizer as the spec describes it: the entire exact table first,
then the heuristics for fields still unset, then the derived `vp_cota`. -/
def extrairDadosGeraisSpec (row : Row) : Dados :=
  let fase1 := row.foldl extrairDadosGeraisSpecExato semDados
  let dados := row.foldl extrairDadosGeraisSpecHeuristica fase1
  match dados .patrimonio_liquido, dados .cotas_emitidas with
  | some pl, some cotas =>
      if pl ≠ 0 ∧ cotas ≠ 0 ∧ 0 < cotas then
        setSeAusente dados .vp_cota (pyRound (pl / cotas) 4)
      else dados
  | _, _ => dados

/-! ## Claim C9: tax-ID format agnosticism of `_filtrar_por_cnpj` -/

theorem matchesCnpjRow_cell_digits (busca : List Str) (pre post : RowS) (nome v v' : Str)
    (h : digitsOf v = digitsOf v') (h14 : (digitsOf v).length = 14) :
    matchesCnpjRow busca (pre ++ (nome, v) :: post) =
    matchesCnpjRow busca (pre ++ (nome, v') :: post) := by
  have e1 : decide ((digitsOf (stripStr v)).length = 14) = true := by
    simp [digitsOf_stripStr, h14]
  have e2 : decide ((digitsOf (stripStr v')).length = 14) = true := by
    simp [digitsOf_stripStr, ← h, h14]
  have hs : digitsOf (stripStr v) = digitsOf (stripStr v') := by
    rw [digitsOf_stripStr, digitsOf_stripStr, h]
  simp only [matchesCnpjRow, List.any_append, List.any_cons]
  rw [hs]
  simp only [e2]
  simp [Bool.or_true]

/-- C9.  Tax-ID filtering is format agnostic: (1) two filter inputs with the
same digits select exactly the same rows; (2) a row whose tax-ID cell is
replaced by another spelling of the same 14 digits passes or fails the filter
identically — `_filtrar_por_cnpj` compares only digits-only canonical forms. -/
theorem filtrar_por_cnpj_format_agnostico :
    (∀ (rows : List RowS) (c c' : Str) (cls : Option (List Str)),
      digitsOf c = digitsOf c' →
      _filtrar_por_cnpj rows c cls = _filtrar_por_cnpj rows c' cls) ∧
    (∀ (pre post : RowS) (nome v v' c : Str) (cls : Option (List Str)),
      digitsOf v = digitsOf v' → (digitsOf v).length = 14 →
      (_filtrar_por_cnpj [pre ++ (nome, v) :: post] c cls = [] ↔
       _filtrar_por_cnpj [pre ++ (nome, v') :: post] c cls = [])) := by
  constructor
  · intro rows c c' cls h
    simp only [_filtrar_por_cnpj, h]
  · intro pre post nome v v' c cls h h14
    have hm := matchesCnpjRow_cell_digits
      (digitsOf c ::
        (match cls with
         | some cs => (cs.map digitsOf).filter (fun x => x ≠ [])
         | none => [])) pre post nome v v' h h14
    simp only [_filtrar_por_cnpj]
    by_cases hc : digitsOf c = []
    · simp [hc]
    · simp only [if_neg hc, List.filter_cons, List.filter_nil, hm]
      cases hmv : matchesCnpjRow
          (digitsOf c ::
            (match cls with
             | some cs => (cs.map digitsOf).filter (fun x => x ≠ [])
             | none => [])) (pre ++ (nome, v') :: post) <;>
        simp [hmv]

/-- Witness for C9 at the spec's concrete pair of spellings. -/
theorem filtrar_por_cnpj_format_agnostico_witness :
    _filtrar_por_cnpj [[(str "CNPJ_Fundo", str "12.345.678/0001-90")]]
        (str "12345678000190") none =
      _filtrar_por_cnpj [[(str "CNPJ_Fundo", str "12.345.678/0001-90")]]
        (str "12.345.678/0001-90") none ∧
    (_filtrar_por_cnpj [[(str "col", str "12.345.678/0001-90")]]
        (str "12345678000190") none = [] ↔
     _filtrar_por_cnpj [[(str "col", str "12345678000190")]]
        (str "12345678000190") none = []) := by
  constructor
  · exact filtrar_por_cnpj_format_agnostico.1
      [[(str "CNPJ_Fundo", str "12.345.678/0001-90")]]
      (str "12345678000190") (str "12.345.678/0001-90") none (by decide)
  · exact filtrar_por_cnpj_format_agnostico.2 [] [] (str "col")
      (str "12.345.678/0001-90") (str "12345678000190") (str "12345678000190") none
      (by decide) (by decide)

/-! ## Claim C6: precedence and determinism of the column mapping -/

theorem setSeAusente_outro (d : Dados) (c c' : Campo) (v : ℚ) (h : c' ≠ c) :
    setSeAusente d c v c' = d c' := by
  unfold setSeAusente
  by_cases hd : d c = none
  · simp [hd, h]
  · simp [hd]

theorem setSeAusente_preserva_some (d : Dados) (c : Campo) (v w : ℚ)
    (h : d c = some w) : setSeAusente d c v c = some w := by
  simp [setSeAusente, h]

theorem setSeAusente_define (d : Dados) (c : Campo) (v : ℚ) (h : d c = none) :
    setSeAusente d c v c = some v := by
  simp [setSeAusente, h]

/-- A column triggers the net-assets field: nonzero coerced value and either
an exact-table hit for `patrimonio_liquido` or (for unmapped columns) the
`"patrim"`/`"liq"` substring heuristic. -/
def definePlProp (kv : Str × Cell) : Prop :=
  _extrair_float_safe kv.2 ≠ 0 ∧
  (map_direto kv.1 = some Campo.patrimonio_liquido ∨
   (map_direto kv.1 = none ∧ containsSub (lowerStr kv.1) (str "patrim") = true ∧
    containsSub (lowerStr kv.1) (str "liq") = true))

instance (kv : Str × Cell) : Decidable (definePlProp kv) := by
  unfold definePlProp
  infer_instance

def colunaDefinePl (kv : Str × Cell) : Bool := decide (definePlProp kv)

/-- The value the first net-assets-triggering column of the row carries. -/
def primeiroPl (row : Row) : Option ℚ :=
  (row.find? colunaDefinePl).map (fun kv => _extrair_float_safe kv.2)


theorem passo_pl (d : Dados) (kv : Str × Cell) :
    (extrairDadosGeraisPasso d kv) .patrimonio_liquido =
      if d .patrimonio_liquido = none ∧ definePlProp kv
      then some (_extrair_float_safe kv.2)
      else d .patrimonio_liquido := by
  cases hmd : map_direto kv.1 with
  | none =>
    by_cases hval : _extrair_float_safe kv.2 = 0
    · have hnp : ¬ definePlProp kv := fun hp => hp.1 hval
      rw [if_neg (fun hc => hnp hc.2)]
      simp only [extrairDadosGeraisPasso, hmd]
      rw [if_pos hval]
    · by_cases hplc : d .patrimonio_liquido = none ∧
          containsSub (lowerStr kv.1) (str "patrim") = true ∧
          containsSub (lowerStr kv.1) (str "liq") = true
      · have hp : definePlProp kv := ⟨hval, Or.inr ⟨hmd, hplc.2.1, hplc.2.2⟩⟩
        rw [if_pos ⟨hplc.1, hp⟩]
        simp only [extrairDadosGeraisPasso, hmd]
        rw [if_neg hval, if_pos ⟨hplc.1, hplc.2.1, hplc.2.2⟩]
        exact setSeAusente_define d _ _ hplc.1
      · have hrhs : ¬ (d .patrimonio_liquido = none ∧ definePlProp kv) := by
          rintro ⟨h1, _, hor | ⟨_, h4, h5⟩⟩
          · rw [hmd] at hor; exact Option.noConfusion hor
          · exact hplc ⟨h1, h4, h5⟩
        rw [if_neg hrhs]
        simp only [extrairDadosGeraisPasso, hmd]
        rw [if_neg hval, if_neg hplc]
        split_ifs with h1 h2
        · exact setSeAusente_outro d _ _ _ (by simp)
        · exact setSeAusente_outro d _ _ _ (by simp)
        · rfl
  | some campo =>
    by_cases hval : _extrair_float_safe kv.2 = 0
    · have hnp : ¬ definePlProp kv := fun hp => hp.1 hval
      rw [if_neg (fun hc => hnp hc.2)]
      simp only [extrairDadosGeraisPasso, hmd]
      rw [if_neg (fun h : _extrair_float_safe kv.2 ≠ 0 => h hval)]
    · by_cases hc : campo = Campo.patrimonio_liquido
      · subst hc
        have hp : definePlProp kv := ⟨hval, Or.inl hmd⟩
        by_cases hdpl : d .patrimonio_liquido = none
        · rw [if_pos ⟨hdpl, hp⟩]
          simp only [extrairDadosGeraisPasso, hmd]
          rw [if_pos hval]
          exact setSeAusente_define d _ _ hdpl
        · rw [if_neg (fun hcond => hdpl hcond.1)]
          simp only [extrairDadosGeraisPasso, hmd]
          rw [if_pos hval]
          rcases Option.ne_none_iff_exists'.mp hdpl with ⟨w, hw⟩
          rw [setSeAusente_preserva_some d _ _ w hw, hw]
      · have hrhs : ¬ (d .patrimonio_liquido = none ∧ definePlProp kv) := by
          rintro ⟨_, _, hor | ⟨hn, _, _⟩⟩
          · rw [hmd] at hor; exact hc (Option.some.inj hor)
          · rw [hmd] at hn; exact Option.noConfusion hn
        rw [if_neg hrhs]
        simp only [extrairDadosGeraisPasso, hmd]
        rw [if_pos hval]
        exact setSeAusente_outro d _ _ _ (fun h => hc h.symm)

theorem fold_pl (row : Row) (d : Dados) :
    (row.foldl extrairDadosGeraisPasso d) .patrimonio_liquido =
      (d .patrimonio_liquido).or (primeiroPl row) := by
  induction row generalizing d with
  | nil => simp [primeiroPl]
  | cons kv rest ih =>
    simp only [List.foldl_cons]
    rw [ih, passo_pl]
    by_cases hcond : d .patrimonio_liquido = none ∧ definePlProp kv
    · rw [if_pos hcond, hcond.1]
      have hfind : colunaDefinePl kv = true := decide_eq_true hcond.2
      simp [primeiroPl, List.find?_cons_of_pos _ hfind, Option.or]
    · rw [if_neg hcond]
      rcases hd : d .patrimonio_liquido with _ | w
      · have hnp : ¬ definePlProp kv := fun hp => hcond ⟨hd, hp⟩
        have hfind : colunaDefinePl kv = false := decide_eq_false hnp
        have hstep : List.find? colunaDefinePl (kv :: rest) = List.find? colunaDefinePl rest :=
          List.find?_cons_of_neg rest (by simp [hfind])
        simp [primeiroPl, hstep, Option.or]
      · simp [Option.or]

/-- C6 (amended).  In `_extrair_dados_gerais` the exact table and the
substring heuristics are interleaved in one pass over the row, per column;
consequently, for the net-assets field, the first column in row order that
triggers either its exact-table rule or its substring heuristic always wins,
deterministically: the resulting `patrimonio_liquido` is exactly the coerced
value of that first triggering column. -/
theorem extrair_dados_gerais_primeira_coluna_vence (row : Row) :
    _extrair_dados_gerais row Campo.patrimonio_liquido = primeiroPl row := by
  have hD : (row.foldl extrairDadosGeraisPasso semDados) .patrimonio_liquido =
      primeiroPl row := by
    have h := fold_pl row semDados
    simpa [semDados, Option.or] using h
  simp only [_extrair_dados_gerais]
  rcases hcp : (row.foldl extrairDadosGeraisPasso semDados) Campo.patrimonio_liquido
    with _ | pl <;>
    rcases hcc : (row.foldl extrairDadosGeraisPasso semDados) Campo.cotas_emitidas
      with _ | cotas <;>
    dsimp only
  · exact hD
  · exact hD
  · exact hD
  · split_ifs with h
    · rw [setSeAusente_outro _ _ _ _ (by decide)]
      exact hD
    · exact hD

/-- The row distinguishing the source's one-pass normalizer from the spec's
two-phase description: a heuristic-only column (`pl_patrim_liq`) appears
before an exact-table column (`VL_PATRIM_LIQ`) carrying a different value. -/
def rowC6 : Row :=
  [(str "pl_patrim_liq", ⟨str "5", some 5⟩), (str "VL_PATRIM_LIQ", ⟨str "7", some 7⟩)]

/-- C6 counterexample.  On `rowC6` the source's single-pass normalizer lets
the earlier heuristic column pre-empt the later exact-table column (yielding
5), while the spec's "heuristics only after the entire exact-match table"
normalizer yields the exact column's value (7): the claim, as stated, is
false on the code. -/
theorem extrair_dados_gerais_contraexemplo :
    _extrair_dados_gerais rowC6 Campo.patrimonio_liquido = some 5 ∧
    extrairDadosGeraisSpec rowC6 Campo.patrimonio_liquido = some 7 ∧
    _extrair_dados_gerais rowC6 Campo.patrimonio_liquido ≠
      extrairDadosGeraisSpec rowC6 Campo.patrimonio_liquido := by
  refine ⟨?_, ?_, ?_⟩ <;> decide

/-! ## Claim C1: the book-value-per-unit invariant -/

theorem lookupCampo_mem (k : Str) (l : List (Str × Campo)) (c : Campo)
    (h : lookupCampo k l = some c) : c ∈ l.map Prod.snd := by
  induction l with
  | nil => exact Option.noConfusion h
  | cons kv rest ih =>
    obtain ⟨a, b⟩ := kv
    unfold lookupCampo at h
    by_cases hk : a = k
    · rw [if_pos hk] at h
      rw [← Option.some.inj h, List.map_cons]
      exact List.mem_cons_self _ _
    · rw [if_neg hk] at h
      rw [List.map_cons]
      exact List.mem_cons_of_mem _ (ih h)

theorem map_direto_nao_vp (k : Str) : map_direto k ≠ some Campo.vp_cota := by
  intro h
  have hm := lookupCampo_mem k mapDiretoTabela Campo.vp_cota h
  revert hm
  decide

theorem setSeAusente_val (d : Dados) (c : Campo) (v : ℚ) (c' : Campo) (w : ℚ)
    (h : setSeAusente d c v c' = some w) : d c' = some w ∨ w = v := by
  unfold setSeAusente at h
  by_cases h1 : d c = none
  · rw [if_pos h1] at h
    by_cases h2 : c' = c
    · right
      rw [if_pos h2] at h
      exact (Option.some.inj h).symm
    · left
      rwa [if_neg h2] at h
  · left
    rwa [if_neg h1] at h

theorem passo_vp (d : Dados) (kv : Str × Cell) :
    (extrairDadosGeraisPasso d kv) .vp_cota = d .vp_cota := by
  simp only [extrairDadosGeraisPasso]
  rcases hmd : map_direto kv.1 with _ | campo <;> simp only [hmd]
  · split_ifs <;> first
      | rfl
      | exact setSeAusente_outro _ _ _ _ (by decide)
  · split_ifs with h1
    · refine setSeAusente_outro _ _ _ _ (fun he => ?_)
      exact map_direto_nao_vp kv.1 (by rw [hmd, ← he])
    · rfl

theorem fold_vp (row : Row) :
    (row.foldl extrairDadosGeraisPasso semDados) .vp_cota = none := by
  suffices h : ∀ d : Dados, d .vp_cota = none →
      (row.foldl extrairDadosGeraisPasso d) .vp_cota = none from h semDados rfl
  induction row with
  | nil => intro d hd; simpa using hd
  | cons kv rest ih =>
    intro d hd
    simp only [List.foldl_cons]
    exact ih _ ((passo_vp d kv).trans hd)

theorem passo_nao_zero (d : Dados) (kv : Str × Cell) (c : Campo)
    (h : ∀ v, d c = some v → v ≠ 0) :
    ∀ v, (extrairDadosGeraisPasso d kv) c = some v → v ≠ 0 := by
  intro v hv
  simp only [extrairDadosGeraisPasso] at hv
  rcases hmd : map_direto kv.1 with _ | campo <;> simp only [hmd] at hv
  · by_cases hval : _extrair_float_safe kv.2 = 0
    · rw [if_pos hval] at hv
      exact h v hv
    · rw [if_neg hval] at hv
      split_ifs at hv with h1 h2 h3
      · rcases setSeAusente_val _ _ _ _ _ hv with hv' | rfl
        · exact h v hv'
        · exact hval
      · rcases setSeAusente_val _ _ _ _ _ hv with hv' | rfl
        · exact h v hv'
        · exact hval
      · rcases setSeAusente_val _ _ _ _ _ hv with hv' | rfl
        · exact h v hv'
        · exact hval
      · exact h v hv
  · split_ifs at hv with h1
    · rcases setSeAusente_val _ _ _ _ _ hv with hv' | rfl
      · exact h v hv'
      · exact h1
    · exact h v hv

theorem fold_nao_zero (row : Row) (c : Campo) :
    ∀ v, (row.foldl extrairDadosGeraisPasso semDados) c = some v → v ≠ 0 := by
  suffices hgen : ∀ (row : Row) (d : Dados), (∀ v, d c = some v → v ≠ 0) →
      ∀ v, (row.foldl extrairDadosGeraisPasso d) c = some v → v ≠ 0 from
    hgen row semDados (fun v hv => Option.noConfusion hv)
  intro row
  induction row with
  | nil => intro d hd; simpa using hd
  | cons kv rest ih =>
    intro d hd
    simp only [List.foldl_cons]
    exact ih _ (passo_nao_zero d kv c hd)

theorem extrair_dados_gerais_outros (row : Row) (c : Campo) (h : c ≠ Campo.vp_cota) :
    _extrair_dados_gerais row c = (row.foldl extrairDadosGeraisPasso semDados) c := by
  simp only [_extrair_dados_gerais]
  rcases h1 : (row.foldl extrairDadosGeraisPasso semDados) Campo.patrimonio_liquido
    with _ | pl <;>
    rcases h2 : (row.foldl extrairDadosGeraisPasso semDados) Campo.cotas_emitidas
      with _ | cotas <;>
    dsimp only
  all_goals first
    | rfl
    | (split_ifs with hcond
       · exact setSeAusente_outro _ _ _ _ h
       · rfl)

/-- The final `vp_cota` field of the normalized record, characterized in
terms of the net-assets and issued-units fields accumulated by the column
pass. -/
theorem extrair_dados_gerais_vp (row : Row) :
    _extrair_dados_gerais row Campo.vp_cota =
      (match (row.foldl extrairDadosGeraisPasso semDados) .patrimonio_liquido,
             (row.foldl extrairDadosGeraisPasso semDados) .cotas_emitidas with
       | some pl, some cotas =>
          if pl ≠ 0 ∧ cotas ≠ 0 ∧ 0 < cotas then some (pyRound (pl / cotas) 4) else none
       | _, _ => none) := by
  have hvp := fold_vp row
  simp only [_extrair_dados_gerais]
  rcases h1 : (row.foldl extrairDadosGeraisPasso semDados) Campo.patrimonio_liquido
    with _ | pl <;>
    rcases h2 : (row.foldl extrairDadosGeraisPasso semDados) Campo.cotas_emitidas
      with _ | cotas <;>
    dsimp only
  all_goals first
    | exact hvp
    | (split_ifs with hcond
       · exact setSeAusente_define _ _ _ hvp
       · exact hvp)

/-- C1 (amended).  Presence and value of the derived book value per unit:
in `_extrair_dados_gerais`, `vp_cota` is present iff `patrimonio_liquido` and
`cotas_emitidas` are both present with `cotas_emitidas > 0` (stored values
are never zero), and then equals `round(pl / cotas, 4)`; in the per-row
extraction of `cvm_historico_vp`, a point exists iff the scanned net assets
are present and nonzero and the scanned units are present and positive, and
its `vp_cota` equals `round(pl / cotas, 4)`.  (The rounded quotient itself
*can* be zero — see the counterexample — so "never zero" is dropped.) -/
theorem vp_cota_invariante :
    (∀ row : Row,
      (_extrair_dados_gerais row Campo.vp_cota ≠ none ↔
        (∃ pl, _extrair_dados_gerais row Campo.patrimonio_liquido = some pl) ∧
        (∃ cotas, _extrair_dados_gerais row Campo.cotas_emitidas = some cotas ∧
          0 < cotas))) ∧
    (∀ (row : Row) (pl cotas : ℚ),
      _extrair_dados_gerais row Campo.patrimonio_liquido = some pl →
      _extrair_dados_gerais row Campo.cotas_emitidas = some cotas →
      0 < cotas →
      _extrair_dados_gerais row Campo.vp_cota = some (pyRound (pl / cotas) 4)) ∧
    (∀ (row : Row) (dt : Str) (ano : ℤ) (pt : Ponto),
      extrairPontoHistorico row dt ano = some pt →
      pt.vp_cota = pyRound (pt.patrimonio_liquido / pt.quantidade_cotas) 4 ∧
      0 < pt.quantidade_cotas ∧ pt.patrimonio_liquido ≠ 0) ∧
    (∀ (row : Row) (dt : Str) (ano : ℤ),
      extrairPontoHistorico row dt ano = none ↔
        ¬ ∃ pl cotas, (row.foldl scanVpPasso ⟨none, none, none⟩).pl = some pl ∧ pl ≠ 0 ∧
          (row.foldl scanVpPasso ⟨none, none, none⟩).cotas = some cotas ∧ cotas ≠ 0 ∧
          0 < cotas) := by
  refine ⟨?_, ?_, ?_, ?_⟩
  · intro row
    have hop := extrair_dados_gerais_outros row Campo.patrimonio_liquido (by decide)
    have hoc := extrair_dados_gerais_outros row Campo.cotas_emitidas (by decide)
    have hv := extrair_dados_gerais_vp row
    rw [hv, hop, hoc]
    rcases h1 : (row.foldl extrairDadosGeraisPasso semDados) Campo.patrimonio_liquido
      with _ | pl <;>
      rcases h2 : (row.foldl extrairDadosGeraisPasso semDados) Campo.cotas_emitidas
        with _ | cotas <;>
      dsimp only
    · simp
    · simp
    · simp
    · constructor
      · intro hne
        by_cases hcond : pl ≠ 0 ∧ cotas ≠ 0 ∧ 0 < cotas
        · exact ⟨⟨pl, rfl⟩, ⟨cotas, rfl, hcond.2.2⟩⟩
        · rw [if_neg hcond] at hne
          exact absurd rfl hne
      · rintro ⟨⟨pl', _⟩, ⟨cotas', hc', hpos⟩⟩
        have hplz := fold_nao_zero row Campo.patrimonio_liquido pl h1
        have hctz := fold_nao_zero row Campo.cotas_emitidas cotas h2
        have hpos' : 0 < cotas := by rw [Option.some.inj hc']; exact hpos
        rw [if_pos ⟨hplz, hctz, hpos'⟩]
        simp
  · intro row pl cotas hpl hcotas hpos
    rw [extrair_dados_gerais_outros row Campo.patrimonio_liquido (by decide)] at hpl
    rw [extrair_dados_gerais_outros row Campo.cotas_emitidas (by decide)] at hcotas
    rw [extrair_dados_gerais_vp row, hpl, hcotas]
    dsimp only
    rw [if_pos ⟨fold_nao_zero row Campo.patrimonio_liquido pl hpl,
      fold_nao_zero row Campo.cotas_emitidas cotas hcotas, hpos⟩]
  · intro row dt ano pt hpt
    simp only [extrairPontoHistorico] at hpt
    rcases h1 : (row.foldl scanVpPasso ⟨none, none, none⟩).pl with _ | pl <;>
      rcases h2 : (row.foldl scanVpPasso ⟨none, none, none⟩).cotas with _ | cotas <;>
      rw [h1, h2] at hpt <;> dsimp only at hpt
    · exact Option.noConfusion hpt
    · exact Option.noConfusion hpt
    · exact Option.noConfusion hpt
    · split_ifs at hpt with hcond
      cases Option.some.inj hpt
      exact ⟨rfl, hcond.2.2, hcond.1⟩
  · intro row dt ano
    simp only [extrairPontoHistorico]
    rcases h1 : (row.foldl scanVpPasso ⟨none, none, none⟩).pl with _ | pl <;>
      rcases h2 : (row.foldl scanVpPasso ⟨none, none, none⟩).cotas with _ | cotas <;>
      dsimp only
    · simp
    · simp
    · simp
    · split_ifs with hcond
      · constructor
        · intro h
          exact h.elim
        · intro hne
          exact (hne ⟨pl, cotas, rfl, hcond.1, rfl, hcond.2.1, hcond.2.2⟩).elim
      · constructor
        · intro _
          rintro ⟨pl', cotas', hp', hpz, hc', hcz, hpos⟩
          cases Option.some.inj hp'
          cases Option.some.inj hc'
          exact hcond ⟨hpz, hcz, hpos⟩
        · intro _
          rfl

/-- The row showing that the rounded book value per unit can be zero: net
assets `1.0` against `1000000` issued units round to `0.0000`. -/
def rowC1 : Row :=
  [(str "VL_PATRIM_LIQ", ⟨str "1", some 1⟩), (str "QT_COTAS", ⟨str "1000000", some 1000000⟩)]

theorem rowC1_vp_calculo : _extrair_dados_gerais rowC1 Campo.vp_cota = some 0 := by
  have h1 : (rowC1.foldl extrairDadosGeraisPasso semDados) Campo.patrimonio_liquido =
      some 1 := by decide
  have h2 : (rowC1.foldl extrairDadosGeraisPasso semDados) Campo.cotas_emitidas =
      some 1000000 := by decide
  rw [extrair_dados_gerais_vp, h1, h2]
  dsimp only
  rw [if_pos ⟨by norm_num, by norm_num, by norm_num⟩]
  have : pyRound ((1 : ℚ) / 1000000) 4 = 0 := by
    norm_num [pyRound, roundHalfEven]
  rw [this]

/-- C1 counterexample.  On `rowC1` both source fields are present and
positive, so `vp_cota` is computed — and `round(1 / 1000000, 4) = 0.0`: the
claim's "when present it is never zero" is false on the code. -/
theorem vp_cota_zero_contraexemplo :
    _extrair_dados_gerais rowC1 Campo.vp_cota = some 0 ∧ some (0 : ℚ) ≠ none := by
  exact ⟨rowC1_vp_calculo, by simp⟩

/-- Witness for C1 at a concrete row (net assets 100000, units 1000,
book value 100). -/
theorem vp_cota_invariante_witness :
    _extrair_dados_gerais
        [(str "VL_PATRIM_LIQ", ⟨str "100000", some 100000⟩),
         (str "QT_COTAS", ⟨str "1000", some 1000⟩)] Campo.vp_cota =
      some (pyRound ((100000 : ℚ) / 1000) 4) ∧
    pyRound ((100000 : ℚ) / 1000) 4 = 100 := by
  constructor
  · exact vp_cota_invariante.2.1
      [(str "VL_PATRIM_LIQ", ⟨str "100000", some 100000⟩),
       (str "QT_COTAS", ⟨str "1000", some 1000⟩)] 100000 1000
      (by decide) (by decide) (by norm_num)
  · norm_num [pyRound, roundHalfEven]

/-! ## Claim C5: the summary variation -/

/-- C5 (amended).  Summary variation: in `cvm_historico_vp`, for a history
with at least one point, the variation equals
`round((latest.vp − earliest.vp) / earliest.vp × 100, 2)` exactly when the
earliest book value per unit is strictly positive, and is `None` otherwise
(also for an empty history); in `cvm_evolucao_patrimonial` the same formula
additionally requires the *latest* book value per unit to be present and
nonzero — when the earliest one is absent, zero or negative the field is
absent. -/
theorem variacao_vp_formula :
    (∀ (pontosUnicos : List Ponto) (p0 pn : Ponto),
      pontosUnicos.head? = some p0 → pontosUnicos.getLast? = some pn →
      cvm_historico_vp_variacao pontosUnicos =
        (if 0 < p0.vp_cota then
          some (pyRound ((pn.vp_cota - p0.vp_cota) / p0.vp_cota * 100) 2)
         else none)) ∧
    cvm_historico_vp_variacao [] = none ∧
    (∀ (dgInicio dgFim : Dados) (vi vf : ℚ),
      dgInicio Campo.vp_cota = some vi → dgFim Campo.vp_cota = some vf →
      0 < vi → vf ≠ 0 →
      resumoVariacaoVp dgInicio dgFim = some (pyRound ((vf - vi) / vi * 100) 2)) ∧
    (∀ dgInicio dgFim : Dados,
      (dgInicio Campo.vp_cota = none ∨ ∃ vi, dgInicio Campo.vp_cota = some vi ∧ vi ≤ 0) →
      resumoVariacaoVp dgInicio dgFim = none) := by
  refine ⟨?_, rfl, ?_, ?_⟩
  · intro pontosUnicos p0 pn h0 hn
    simp only [cvm_historico_vp_variacao, h0, hn]
  · intro dgInicio dgFim vi vf hi hf hpos hnz
    simp only [resumoVariacaoVp, hi, hf]
    rw [if_pos ⟨ne_of_gt hpos, hnz, hpos⟩]
  · intro dgInicio dgFim hcase
    rcases hcase with hnone | ⟨vi, hvi, hle⟩
    · simp only [resumoVariacaoVp, hnone]
    · simp only [resumoVariacaoVp, hvi]
      rcases hf : dgFim Campo.vp_cota with _ | vf
      · rfl
      · dsimp only
        rw [if_neg (fun hc => absurd hc.2.2 (not_lt.mpr hle))]

/-- The earliest-snapshot data of the C5 counterexample: book value 100. -/
def dgC5inicio : Dados := fun c => if c = Campo.vp_cota then some 100 else none

/-- C5 counterexample.  In `cvm_evolucao_patrimonial`, with earliest book
value per unit 100 and latest one present but equal to 0 (produced by the
normalizer on `rowC1`), the code leaves the variation absent, while the claim
demands `round((0 − 100) / 100 × 100, 2) = −100.00`. -/
theorem variacao_vp_evolucao_contraexemplo :
    resumoVariacaoVp dgC5inicio (_extrair_dados_gerais rowC1) = none ∧
    resumoVariacaoVp dgC5inicio (_extrair_dados_gerais rowC1) ≠
      some (pyRound (((0 : ℚ) - 100) / 100 * 100) 2) := by
  have hi : dgC5inicio Campo.vp_cota = some 100 := rfl
  have hf := rowC1_vp_calculo
  have hnone : resumoVariacaoVp dgC5inicio (_extrair_dados_gerais rowC1) = none := by
    simp only [resumoVariacaoVp, hi, hf]
    rw [if_neg (fun hc => hc.2.1 rfl)]
  refine ⟨hnone, ?_⟩
  rw [hnone]
  simp

/-- Witness for C5 at the spec's scenario: earliest 100.00, latest 115.00,
variation 15.00 (and the guarded evolucao variant). -/
theorem variacao_vp_formula_witness :
    cvm_historico_vp_variacao
        [⟨str "2016-01-31", 100000, 1000, none, 100, 2016⟩,
         ⟨str "2024-12-31", 115000, 1000, none, 115, 2024⟩] =
      some (pyRound (((115 : ℚ) - 100) / 100 * 100) 2) ∧
    pyRound (((115 : ℚ) - 100) / 100 * 100) 2 = 15 ∧
    resumoVariacaoVp (fun c => if c = Campo.vp_cota then some 100 else none)
        (fun c => if c = Campo.vp_cota then some 115 else none) =
      some (pyRound (((115 : ℚ) - 100) / 100 * 100) 2) := by
  refine ⟨?_, ?_, ?_⟩
  · have h := variacao_vp_formula.1
      [⟨str "2016-01-31", 100000, 1000, none, 100, 2016⟩,
       ⟨str "2024-12-31", 115000, 1000, none, 115, 2024⟩]
      ⟨str "2016-01-31", 100000, 1000, none, 100, 2016⟩
      ⟨str "2024-12-31", 115000, 1000, none, 115, 2024⟩ rfl rfl
    rw [h]
    norm_num
  · norm_num [pyRound, roundHalfEven]
  · exact variacao_vp_formula.2.2.1
      (fun c => if c = Campo.vp_cota then some 100 else none)
      (fun c => if c = Campo.vp_cota then some 115 else none) 100 115 rfl rfl
      (by norm_num) (by norm_num)

/-! ## Claims C2 and C7: the multi-variant FNET search -/

theorem buscarFnetLoop_falha_passo (nome : Str) (p : FnetPayload)
    (rest : List (Str × FnetPayload)) (oracle : ℕ → FnetResp) (maxDocs i : ℕ)
    (h : respSucesso (oracle i) = false) :
    buscarFnetLoop ((nome, p) :: rest) oracle maxDocs i =
      buscarFnetLoop rest oracle maxDocs (i + 1) := by
  rcases ho : oracle i with _ | ⟨ok, corpo⟩
  · simp [buscarFnetLoop, ho]
  · rw [ho] at h
    cases ok with
    | false => simp [buscarFnetLoop, ho]
    | true =>
      rcases corpo with _ | items
      · simp [buscarFnetLoop, ho]
      · rcases items with _ | ⟨x, xs⟩
        · simp [buscarFnetLoop, ho]
        · simp [respSucesso] at h

theorem buscarFnetLoop_sucesso_passo (nome : Str) (p : FnetPayload)
    (rest : List (Str × FnetPayload)) (oracle : ℕ → FnetResp) (maxDocs i : ℕ)
    (hm : 1 ≤ maxDocs) (h : respSucesso (oracle i) = true) :
    buscarFnetLoop ((nome, p) :: rest) oracle maxDocs i =
      (((respItens (oracle i)).take maxDocs).map (fnetDocDeItem nome), i + 1) := by
  rcases ho : oracle i with _ | ⟨ok, corpo⟩
  · rw [ho] at h; simp [respSucesso] at h
  · rw [ho] at h
    cases ok with
    | false => simp [respSucesso] at h
    | true =>
      rcases corpo with _ | items
      · simp [respSucesso] at h
      · rcases items with _ | ⟨x, xs⟩
        · simp [respSucesso] at h
        · have hne : ((x :: xs).take maxDocs).map (fnetDocDeItem nome) ≠ [] := by
            rcases maxDocs with _ | m
            · exact absurd hm (by simp)
            · simp [List.take_cons]
          simp only [buscarFnetLoop, ho, respItens]
          rw [if_neg (by simp), if_neg (by simp), if_neg hne]

theorem buscarFnetLoop_todas_falham (ts : List (Str × FnetPayload))
    (oracle : ℕ → FnetResp) (maxDocs : ℕ) :
    ∀ i, (∀ j, j < ts.length → respSucesso (oracle (i + j)) = false) →
    buscarFnetLoop ts oracle maxDocs i = ([], i + ts.length) := by
  induction ts with
  | nil => intro i _; simp [buscarFnetLoop]
  | cons hd rest ih =>
    intro i hfail
    obtain ⟨nome, p⟩ := hd
    rw [buscarFnetLoop_falha_passo nome p rest oracle maxDocs i
      (by simpa using hfail 0 (by simp))]
    rw [ih (i + 1) (fun j hj => by
      have := hfail (j + 1) (by simpa using Nat.succ_lt_succ hj)
      simpa [Nat.add_assoc, Nat.add_comm 1 j] using this)]
    simp [Nat.add_assoc, Nat.add_comm 1 rest.length]

theorem buscarFnetLoop_primeiro_sucesso (ts : List (Str × FnetPayload))
    (oracle : ℕ → FnetResp) (maxDocs : ℕ) (hm : 1 ≤ maxDocs) :
    ∀ i k, k < ts.length →
    (∀ j, j < k → respSucesso (oracle (i + j)) = false) →
    respSucesso (oracle (i + k)) = true →
    buscarFnetLoop ts oracle maxDocs i =
      (((respItens (oracle (i + k))).take maxDocs).map
        (fnetDocDeItem ((ts.map Prod.fst).getD k [])), i + k + 1) := by
  induction ts with
  | nil => intro i k hk; exact absurd hk (by simp)
  | cons hd rest ih =>
    intro i k hk hfail hsucc
    obtain ⟨nome, p⟩ := hd
    cases k with
    | zero =>
      rw [Nat.add_zero] at hsucc
      rw [buscarFnetLoop_sucesso_passo nome p rest oracle maxDocs i hm hsucc]
      simp
    | succ k' =>
      rw [buscarFnetLoop_falha_passo nome p rest oracle maxDocs i
        (by simpa using hfail 0 (Nat.succ_pos k'))]
      have hrec := ih (i + 1) k' (by simpa using Nat.lt_of_succ_lt_succ hk)
        (fun j hj => by
          have := hfail (j + 1) (Nat.succ_lt_succ hj)
          simpa [Nat.add_assoc, Nat.add_comm 1 j] using this)
        (by
          have : i + 1 + k' = i + (k' + 1) := by omega
          rw [this]
          exact hsucc)
      rw [hrec]
      have he : i + 1 + k' = i + (k' + 1) := by omega
      rw [he]
      simp

theorem tentativas_com_cnpj (ticker c : Str) (maxDocs : ℕ) (hc : c ≠ [])
    (hd : digitsOf c ≠ []) :
    buscar_fnet_tentativas ticker (some c) maxDocs =
      [(str "CNPJ sem formatação", { fnetPayloadBase maxDocs with cnpj := digitsOf c }),
       (str "CNPJ formatado", { fnetPayloadBase maxDocs with cnpj := c }),
       (str "CNPJ limpo + ticker",
        { fnetPayloadBase maxDocs with cnpj := digitsOf c, codigoNegociacao := ticker }),
       (str "Ticker", { fnetPayloadBase maxDocs with codigoNegociacao := ticker }),
       (str "CNPJ limpo sem tipo",
        { fnetPayloadBase maxDocs with tipoFundo := str "0", cnpj := digitsOf c })] := by
  simp [buscar_fnet_tentativas, hc, hd]

/-- C2.  With a truthy tax ID that has digits, `buscar_fnet` builds exactly
the five declared variants in order; if the first `k` POSTs fail (exception,
non-2xx, non-JSON or empty `data`) and the `(k+1)`-st succeeds, the loop
performs exactly `k + 1` POSTs (never attempting a later variant) and returns
that variant's rows as documents, each tagged with the variant's label. -/
theorem buscar_fnet_para_no_primeiro_sucesso (ticker c : Str) (maxDocs k : ℕ)
    (oracle : ℕ → FnetResp) (hc : c ≠ []) (hd : digitsOf c ≠ []) (hm : 1 ≤ maxDocs)
    (hk : k < 5) (hfail : ∀ j, j < k → respSucesso (oracle j) = false)
    (hsucc : respSucesso (oracle k) = true) :
    ((buscar_fnet_tentativas ticker (some c) maxDocs).map Prod.fst =
      [str "CNPJ sem formatação", str "CNPJ formatado", str "CNPJ limpo + ticker",
       str "Ticker", str "CNPJ limpo sem tipo"]) ∧
    buscar_fnet ticker (some c) maxDocs oracle =
      (((respItens (oracle k)).take maxDocs).map
        (fnetDocDeItem
          (((buscar_fnet_tentativas ticker (some c) maxDocs).map Prod.fst).getD k [])),
       k + 1) ∧
    (∀ d ∈ (buscar_fnet ticker (some c) maxDocs oracle).1,
      d.estrategia_usada =
        ((buscar_fnet_tentativas ticker (some c) maxDocs).map Prod.fst).getD k []) := by
  have hts := tentativas_com_cnpj ticker c maxDocs hc hd
  have hnames : (buscar_fnet_tentativas ticker (some c) maxDocs).map Prod.fst =
      [str "CNPJ sem formatação", str "CNPJ formatado", str "CNPJ limpo + ticker",
       str "Ticker", str "CNPJ limpo sem tipo"] := by
    rw [hts]
    rfl
  have hlen : (buscar_fnet_tentativas ticker (some c) maxDocs).length = 5 := by
    rw [hts]
    rfl
  have hmain : buscar_fnet ticker (some c) maxDocs oracle =
      (((respItens (oracle k)).take maxDocs).map
        (fnetDocDeItem
          (((buscar_fnet_tentativas ticker (some c) maxDocs).map Prod.fst).getD k [])),
       k + 1) := by
    unfold buscar_fnet
    have h := buscarFnetLoop_primeiro_sucesso (buscar_fnet_tentativas ticker (some c) maxDocs)
      oracle maxDocs hm 0 k (by rw [hlen]; exact hk)
      (fun j hj => by simpa using hfail j hj) (by simpa using hsucc)
    simpa using h
  refine ⟨hnames, hmain, ?_⟩
  intro d hdmem
  rw [hmain] at hdmem
  simp only [List.mem_map] at hdmem
  rcases hdmem with ⟨item, _, rfl⟩
  rfl

/-- Witness for C2: the spec's scenario — variants 1 and 2 fail, variant 3
returns one row; exactly three POSTs happen and the document is tagged with
variant 3's label. -/
theorem buscar_fnet_para_no_primeiro_sucesso_witness :
    buscar_fnet (str "HGLG11") (some (str "11.728.688/0001-47")) 20
        (fun i => if i = 2 then
            FnetResp.resp true (some [⟨some (str "77"), str "Relatórios", str "Relatório Gerencial",
              str "01/01/2024", str "", str "A"⟩])
          else FnetResp.resp true (some [])) =
      ([fnetDocDeItem (str "CNPJ limpo + ticker")
          ⟨some (str "77"), str "Relatórios", str "Relatório Gerencial",
           str "01/01/2024", str "", str "A"⟩], 3) ∧
    (fnetDocDeItem (str "CNPJ limpo + ticker")
        ⟨some (str "77"), str "Relatórios", str "Relatório Gerencial",
         str "01/01/2024", str "", str "A"⟩).estrategia_usada =
      str "CNPJ limpo + ticker" := by
  have h := buscar_fnet_para_no_primeiro_sucesso (str "HGLG11")
    (str "11.728.688/0001-47") 20 2
    (fun i => if i = 2 then
        FnetResp.resp true (some [⟨some (str "77"), str "Relatórios", str "Relatório Gerencial",
          str "01/01/2024", str "", str "A"⟩])
      else FnetResp.resp true (some []))
    (by decide) (by decide) (by decide) (by decide)
    (fun j hj => by interval_cases j <;> decide) (by decide)
  refine ⟨?_, rfl⟩
  rw [h.2.1]
  rw [h.1]
  decide

/-- C7.  `buscar_fnet` never propagates a failure: when every variant fails
(exception, non-2xx, non-JSON body, or zero result rows) it returns the empty
list after attempting all variants; `listar_documentos` then still produces a
populated response whose `aviso` is the degraded-search notice, and that
notice names the tax ID and the legal name that were tried. -/
theorem buscar_fnet_degrada_sem_excecao :
    (∀ (ticker : Str) (cnpj : Option Str) (maxDocs : ℕ) (oracle : ℕ → FnetResp),
      (∀ j, j < (buscar_fnet_tentativas ticker cnpj maxDocs).length →
        respSucesso (oracle j) = false) →
      buscar_fnet ticker cnpj maxDocs oracle =
        ([], (buscar_fnet_tentativas ticker cnpj maxDocs).length)) ∧
    (∀ (env : ListarEnv) (ticker0 : Str) (maxDocs : ℕ) (categoria : Option Str)
        (now : ℤ) (cache : Cache),
      detectar_tipo_ativo (stripStr (upperStr ticker0)) = Tipo.fii →
      cacheLookup cache (CacheKey.docs (stripStr (upperStr ticker0)) maxDocs) now = none →
      (buscar_fnet (stripStr (upperStr ticker0))
          ((descobrir_dados_fii (stripStr (upperStr ticker0)) env.fii).1).cnpj
          maxDocs env.fnet).1 = [] →
      ∃ r : DocsResult,
        (listar_documentos env ticker0 maxDocs categoria now cache).1 = CacheVal.docsR r ∧
        r.documentos = [] ∧ r.total_documentos = 0 ∧
        r.aviso = some (erro_fnet_msg (stripStr (upperStr ticker0))
          ((descobrir_dados_fii (stripStr (upperStr ticker0)) env.fii).1).cnpj
          ((descobrir_dados_fii (stripStr (upperStr ticker0)) env.fii).1).razao_social)) ∧
    (∀ (t : Str) (cnpj razao : Option Str), ∃ pre post : Str,
      erro_fnet_msg t cnpj razao = pre ++ pyOrStr cnpj (str "não encontrado") ++ post ∧
      ∃ pre2 post2 : Str, post = pre2 ++ pyOrStr razao (str "não encontrada") ++ post2) := by
  refine ⟨?_, ?_, ?_⟩
  · intro ticker cnpj maxDocs oracle hfail
    unfold buscar_fnet
    have h := buscarFnetLoop_todas_falham (buscar_fnet_tentativas ticker cnpj maxDocs)
      oracle maxDocs 0 (fun j hj => by simpa using hfail j hj)
    simpa using h
  · intro env ticker0 maxDocs categoria now cache htipo hmiss hempty
    unfold cacheLookup at hmiss
    rcases hcg : cache_get cache (CacheKey.docs (stripStr (upperStr ticker0)) maxDocs) now
      with ⟨o, c1⟩
    rw [hcg] at hmiss
    simp only at hmiss
    subst hmiss
    refine ⟨{ ticker := stripStr (upperStr ticker0), tipo := Tipo.fii,
              label := tipoLabel Tipo.fii,
              cnpj := ((descobrir_dados_fii (stripStr (upperStr ticker0)) env.fii).1).cnpj,
              razao_social :=
                ((descobrir_dados_fii (stripStr (upperStr ticker0)) env.fii).1).razao_social,
              total_documentos := 0, documentos := [],
              aviso := some (erro_fnet_msg (stripStr (upperStr ticker0))
                ((descobrir_dados_fii (stripStr (upperStr ticker0)) env.fii).1).cnpj
                ((descobrir_dados_fii (stripStr (upperStr ticker0)) env.fii).1).razao_social) },
           ?_, rfl, rfl, rfl⟩
    have hfresco : listarResultadoFresco env (stripStr (upperStr ticker0)) maxDocs categoria =
        { ticker := stripStr (upperStr ticker0), tipo := Tipo.fii,
          label := tipoLabel Tipo.fii,
          cnpj := ((descobrir_dados_fii (stripStr (upperStr ticker0)) env.fii).1).cnpj,
          razao_social :=
            ((descobrir_dados_fii (stripStr (upperStr ticker0)) env.fii).1).razao_social,
          total_documentos := 0, documentos := [],
          aviso := some (erro_fnet_msg (stripStr (upperStr ticker0))
            ((descobrir_dados_fii (stripStr (upperStr ticker0)) env.fii).1).cnpj
            ((descobrir_dados_fii (stripStr (upperStr ticker0)) env.fii).1).razao_social) } := by
      unfold listarResultadoFresco
      dsimp only
      rw [htipo]
      dsimp only
      rw [hempty]
      rw [if_neg (show ¬(([] : List FnetDoc) ≠ []) from fun hne => hne rfl)]
      dsimp only
      rw [filtrarCategoria_nil]
      rfl
    unfold listar_documentos
    dsimp only
    rw [hcg]
    dsimp only
    unfold listar_documentos_calcular
    dsimp only
    rw [hfresco]
    rw [if_neg (show ¬(([] : List FnetDoc) ≠ []) from fun hne => hne rfl)]
  · intro t cnpj razao
    refine ⟨str "FNET não retornou documentos para " ++ t ++
      str ". Dados usados na busca: CNPJ=", ?_, ?_, ?_⟩
    · exact str ", Razão Social=" ++ pyOrStr razao (str "não encontrada") ++
        str ". Possíveis causas: ticker incorreto, FNET temporariamente fora do ar, ou o fundo não possui documentos publicados."
    · simp [erro_fnet_msg, List.append_assoc]
    · exact ⟨str ", Razão Social=", str ". Possíveis causas: ticker incorreto, FNET temporariamente fora do ar, ou o fundo não possui documentos publicados.", rfl⟩

/-- The concrete degraded environment of the C7 witness: every scrape,
registry and FNET request fails. -/
def envW : ListarEnv :=
  { fii := { sites := fun _ => ScrapeResp.exn, bulk := BulkResp.exn },
    fnet := fun _ => FnetResp.exn, b3 := [] }

/-- Witness for C7: with every FNET POST failing, `buscar_fnet` returns the
empty list after its five variants, and `listar_documentos` returns a
populated degraded response with the notice. -/
theorem buscar_fnet_degrada_sem_excecao_witness :
    (∃ r : DocsResult,
      (listar_documentos envW (str "HGLG11") 20 none 0 (fun _ => none)).1 =
        CacheVal.docsR r ∧
      r.documentos = [] ∧ r.total_documentos = 0 ∧
      r.aviso = some (erro_fnet_msg (stripStr (upperStr (str "HGLG11")))
        ((descobrir_dados_fii (stripStr (upperStr (str "HGLG11"))) envW.fii).1).cnpj
        ((descobrir_dados_fii (stripStr (upperStr (str "HGLG11"))) envW.fii).1).razao_social)) ∧
    buscar_fnet (str "HGLG11") (some (str "11.728.688/0001-47")) 20
        (fun _ => FnetResp.exn) =
      ([], 5) := by
  constructor
  · exact buscar_fnet_degrada_sem_excecao.2.1 envW (str "HGLG11") 20 none 0 (fun _ => none)
      (by decide) rfl (by decide)
  · have h := buscar_fnet_degrada_sem_excecao.1 (str "HGLG11")
      (some (str "11.728.688/0001-47")) 20 (fun _ => FnetResp.exn) (fun j _ => rfl)
    rw [h]
    decide

/-! ## Claim C3: resolution keeps no cache -/

/-- C3 (amended).  `descobrir_dados_fii` holds no per-symbol cache: its
result and its network-request count are pure functions of the upstream
environment, identical on every (first or repeated) call.  A symbol in the
embedded static directory resolves with zero network requests on every call;
a symbol outside it re-runs the scraping tier — already the first site
costs one request on every call, so a repeated call does not perform zero
additional requests. -/
theorem descobrir_dados_fii_sem_cache :
    (∀ (ticker c : Str) (env : FiiEnv),
      lookupStr (stripStr (upperStr ticker)) FII_CNPJ_DB = some c →
      descobrir_dados_fii ticker env =
        ({ cnpj := some c, razao_social := none, cod_cvm := none }, 0)) ∧
    (∀ (ticker : Str) (env : FiiEnv) (p : PageObs) (c : Str),
      lookupStr (stripStr (upperStr ticker)) FII_CNPJ_DB = none →
      env.sites 0 = ScrapeResp.page p → p.ok = true → p.cnpjMatch = some c →
      descobrir_dados_fii ticker env =
        ({ cnpj := some c, razao_social := p.razaoHeading, cod_cvm := none }, 1)) := by
  constructor
  · intro ticker c env hdb
    unfold descobrir_dados_fii
    dsimp only
    rw [hdb]
  · intro ticker env p c hdb hsite hok hcnpj
    have hscrape : descobrirFiiScrape [0, 1, 2] env 0 =
        (some { cnpj := some c, razao_social := p.razaoHeading, cod_cvm := none }, 1) := by
      unfold descobrirFiiScrape
      rw [hsite]
      dsimp only
      rw [if_pos hok, hcnpj]
    unfold descobrir_dados_fii
    dsimp only
    rw [hdb]
    dsimp only
    rw [hscrape]

/-- The first scraped site of the C3 environment answers with a tax ID. -/
def pageC3 : PageObs :=
  { ok := true, cnpjMatch := some (str "11.111.111/0001-11"), razaoHeading := none }

def envC3 : FiiEnv :=
  { sites := fun i => if i = 0 then ScrapeResp.page pageC3 else ScrapeResp.exn,
    bulk := BulkResp.exn }

/-- C3 counterexample.  `AAAA11` is not in the embedded directory, so every
call to `descobrir_dados_fii` — including the second one of two successive
calls — performs one network request (the first scraped site): the claimed
"zero additional network calls on the second call" is false, because the
function caches nothing. -/
theorem descobrir_dados_fii_contraexemplo :
    (descobrir_dados_fii (str "AAAA11") envC3).2 = 1 ∧
    (descobrir_dados_fii (str "AAAA11") envC3).2 ≠ 0 := by
  constructor <;> decide

/-- Witness for C3: a static-directory symbol resolves with zero requests;
a scraped symbol costs one request on every call. -/
theorem descobrir_dados_fii_sem_cache_witness :
    descobrir_dados_fii (str "HGLG11") envC3 =
      ({ cnpj := some (str "11.728.688/0001-47"), razao_social := none, cod_cvm := none },
       0) ∧
    descobrir_dados_fii (str "AAAA11") envC3 =
      ({ cnpj := some (str "11.111.111/0001-11"), razao_social := none, cod_cvm := none },
       1) := by
  constructor
  · exact descobrir_dados_fii_sem_cache.1 (str "HGLG11") (str "11.728.688/0001-47") envC3
      (by decide)
  · exact descobrir_dados_fii_sem_cache.2 (str "AAAA11") envC3 pageC3
      (str "11.111.111/0001-11") (by decide) (by decide) rfl rfl

/-! ## Claim C10: the documents endpoint caches only successful results -/

theorem cacheGet_obs (cache : Cache) (key : CacheKey) (now : ℤ) :
    ∀ (k : CacheKey) (n' : ℤ), now ≤ n' →
      cacheLookup (cache_get cache key now).2 k n' = cacheLookup cache k n' := by
  intro k n' hn
  unfold cacheLookup cache_get
  rcases hc : cache key with _ | ⟨ts, dat⟩
  · rfl
  · dsimp only
    by_cases hvalid : now - ts < 600
    · rw [if_pos hvalid]
    · rw [if_neg hvalid]
      dsimp only
      by_cases hk : k = key
      · subst hk
        rw [if_pos rfl, hc]
        dsimp only
        have hexp : ¬ n' - ts < 600 := by omega
        rw [if_neg hexp]
      · rw [if_neg hk]
        rcases hck : cache k with _ | ⟨ts2, dat2⟩ <;> dsimp only
        all_goals split_ifs <;> rfl

theorem cacheLookup_set_self (c : Cache) (key : CacheKey) (v : CacheVal) (now : ℤ) :
    cacheLookup (cache_set c key v now) key now = some v := by
  unfold cacheLookup cache_get cache_set
  rw [if_pos rfl]
  dsimp only
  rw [if_pos (by omega : now - now < 600)]

theorem listar_documentos_calcular_fst (env : ListarEnv) (ticker : Str) (maxDocs : ℕ)
    (categoria : Option Str) (now : ℤ) (c1 : Cache) :
    (listar_documentos_calcular env ticker maxDocs categoria now c1).1 =
      CacheVal.docsR (listarResultadoFresco env ticker maxDocs categoria) := by
  unfold listar_documentos_calcular
  dsimp only
  split_ifs <;> rfl

theorem listar_documentos_calcular_snd (env : ListarEnv) (ticker : Str) (maxDocs : ℕ)
    (categoria : Option Str) (now : ℤ) (c1 : Cache) :
    (listar_documentos_calcular env ticker maxDocs categoria now c1).2 =
      (if (listarResultadoFresco env ticker maxDocs categoria).documentos ≠ [] then
        cache_set c1 (CacheKey.docs ticker maxDocs)
          (.docsR (listarResultadoFresco env ticker maxDocs categoria)) now
       else c1) := by
  unfold listar_documentos_calcular
  dsimp only
  split_ifs <;> rfl

/-- C10.  The documents endpoint caches only successful results: (1) a call
whose returned document list is empty leaves every later cache observation
unchanged; (2) on a miss, a call whose returned document list is nonempty
stores the returned response under its key; (3) the indicators endpoint's
key always maps to the returned response after a call — it caches its
computed result unconditionally. -/
theorem cache_documentos_somente_sucesso :
    (∀ (env : ListarEnv) (ticker0 : Str) (maxDocs : ℕ) (categoria : Option Str)
        (now : ℤ) (cache : Cache) (r : DocsResult),
      (listar_documentos env ticker0 maxDocs categoria now cache).1 = CacheVal.docsR r →
      r.documentos = [] →
      ∀ (k : CacheKey) (n' : ℤ), now ≤ n' →
        cacheLookup (listar_documentos env ticker0 maxDocs categoria now cache).2 k n' =
          cacheLookup cache k n') ∧
    (∀ (env : ListarEnv) (ticker0 : Str) (maxDocs : ℕ) (categoria : Option Str)
        (now : ℤ) (cache : Cache) (r : DocsResult),
      cacheLookup cache (CacheKey.docs (stripStr (upperStr ticker0)) maxDocs) now = none →
      (listar_documentos env ticker0 maxDocs categoria now cache).1 = CacheVal.docsR r →
      r.documentos ≠ [] →
      cacheLookup (listar_documentos env ticker0 maxDocs categoria now cache).2
          (CacheKey.docs (stripStr (upperStr ticker0)) maxDocs) now =
        some (CacheVal.docsR r)) ∧
    (∀ (ind : Str → List (Str × Str)) (ticker0 : Str) (now : ℤ) (cache : Cache),
      cacheLookup (indicadores ind ticker0 now cache).2
          (CacheKey.ind (stripStr (upperStr ticker0))) now =
        some ((indicadores ind ticker0 now cache).1)) := by
  refine ⟨?_, ?_, ?_⟩
  · intro env ticker0 maxDocs categoria now cache r hres hdocs k n' hn
    have hobs := cacheGet_obs cache (CacheKey.docs (stripStr (upperStr ticker0)) maxDocs) now
      k n' hn
    rcases hcg : cache_get cache (CacheKey.docs (stripStr (upperStr ticker0)) maxDocs) now
      with ⟨o, c1⟩
    rw [hcg] at hobs
    have hli : listar_documentos env ticker0 maxDocs categoria now cache =
        (match (o, c1) with
         | (some v, c1) => (v, c1)
         | (none, c1) =>
            listar_documentos_calcular env (stripStr (upperStr ticker0)) maxDocs categoria
              now c1) := by
      unfold listar_documentos
      dsimp only
      rw [hcg]
    rcases o with _ | v
    · rw [hli] at hres ⊢
      dsimp only at hres ⊢
      have hfst := listar_documentos_calcular_fst env (stripStr (upperStr ticker0)) maxDocs
        categoria now c1
      rw [hres] at hfst
      have hr : r = listarResultadoFresco env (stripStr (upperStr ticker0)) maxDocs categoria := by
        cases hfst
        rfl
      rw [listar_documentos_calcular_snd]
      rw [if_neg (by rw [← hr]; intro hne; exact hne hdocs)]
      exact hobs
    · rw [hli] at hres ⊢
      exact hobs
  · intro env ticker0 maxDocs categoria now cache r hmiss hres hne
    unfold cacheLookup at hmiss
    rcases hcg : cache_get cache (CacheKey.docs (stripStr (upperStr ticker0)) maxDocs) now
      with ⟨o, c1⟩
    rw [hcg] at hmiss
    simp only at hmiss
    subst hmiss
    have hli : listar_documentos env ticker0 maxDocs categoria now cache =
        listar_documentos_calcular env (stripStr (upperStr ticker0)) maxDocs categoria
          now c1 := by
      unfold listar_documentos
      dsimp only
      rw [hcg]
    rw [hli] at hres ⊢
    have hfst := listar_documentos_calcular_fst env (stripStr (upperStr ticker0)) maxDocs
      categoria now c1
    rw [hres] at hfst
    have hr : r = listarResultadoFresco env (stripStr (upperStr ticker0)) maxDocs categoria := by
      cases hfst
      rfl
    rw [listar_documentos_calcular_snd, if_pos (by rw [← hr]; exact hne), ← hr]
    exact cacheLookup_set_self c1 _ _ now
  · intro ind ticker0 now cache
    unfold indicadores
    dsimp only
    rcases hcg : cache_get cache (CacheKey.ind (stripStr (upperStr ticker0))) now
      with ⟨o, c1⟩
    rcases o with _ | v
    · dsimp only
      exact cacheLookup_set_self c1 _ _ now
    · dsimp only
      have hvc : c1 = cache ∧ cacheLookup cache (CacheKey.ind (stripStr (upperStr ticker0))) now
          = some v := by
        unfold cacheLookup
        unfold cache_get at hcg ⊢
        rcases hc : cache (CacheKey.ind (stripStr (upperStr ticker0))) with _ | ⟨ts, dat⟩
        · rw [hc] at hcg
          dsimp only at hcg
          injection hcg with h1 _
          exact Option.noConfusion h1
        · rw [hc] at hcg
          dsimp only at hcg
          by_cases hvalid : now - ts < 600
          · rw [if_pos hvalid] at hcg
            injection hcg with h1 h2
            dsimp only
            rw [if_pos hvalid]
            exact ⟨h2.symm, h1⟩
          · rw [if_neg hvalid] at hcg
            injection hcg with h1 _
            exact Option.noConfusion h1
      rw [hvc.1]
      exact hvc.2

def itemS : FnetItem :=
  ⟨some (str "9"), str "Relatórios", str "Relatório Gerencial", str "02/02/2024",
   str "", str "A"⟩

/-- Environment in which the FNET search succeeds immediately. -/
def envS : ListarEnv :=
  { fii := { sites := fun _ => ScrapeResp.exn, bulk := BulkResp.exn },
    fnet := fun _ => FnetResp.resp true (some [itemS]), b3 := [] }

def rS : DocsResult :=
  { ticker := str "HGLG11", tipo := Tipo.fii, label := str "FII",
    cnpj := some (str "11.728.688/0001-47"), razao_social := none,
    total_documentos := 1,
    documentos := [fnetDocDeItem (str "CNPJ sem formatação") itemS], aviso := none }

def rW : DocsResult :=
  { ticker := str "HGLG11", tipo := Tipo.fii, label := str "FII",
    cnpj := some (str "11.728.688/0001-47"), razao_social := none,
    total_documentos := 0, documentos := [],
    aviso := some (erro_fnet_msg (str "HGLG11")
      (some (str "11.728.688/0001-47")) none) }

set_option maxRecDepth 4000 in
/-- Witness for C10: a successful call stores its response under its key; a
degraded (zero-document) call leaves every later cache observation
unchanged. -/
theorem cache_documentos_somente_sucesso_witness :
    cacheLookup (listar_documentos envS (str "HGLG11") 20 none 0 (fun _ => none)).2
        (CacheKey.docs (stripStr (upperStr (str "HGLG11"))) 20) 0 =
      some (CacheVal.docsR rS) ∧
    cacheLookup (listar_documentos envW (str "HGLG11") 20 none 0 (fun _ => none)).2
        (CacheKey.docs (stripStr (upperStr (str "HGLG11"))) 20) 5 =
      cacheLookup (fun _ => none) (CacheKey.docs (stripStr (upperStr (str "HGLG11"))) 20) 5 := by
  constructor
  · exact cache_documentos_somente_sucesso.2.1 envS (str "HGLG11") 20 none 0
      (fun _ => none) rS rfl (by decide) (by decide)
  · exact cache_documentos_somente_sucesso.1 envW (str "HGLG11") 20 none 0
      (fun _ => none) rW (by decide) (by decide)
      (CacheKey.docs (stripStr (upperStr (str "HGLG11"))) 20) 5 (by omega)

/-! ## Claim C8: the bulk-archive ingester never raises -/

theorem zip_fst_prefix {α β : Type} (a : List α) (b : List β) :
    (a.zip b).map Prod.fst <+: a := by
  induction a generalizing b with
  | nil => simp
  | cons x xs ih =>
    cases b with
    | nil => simp
    | cons y ys =>
      obtain ⟨t, ht⟩ := ih ys
      exact ⟨t, by rw [List.zip_cons_cons, List.map_cons, List.cons_append, ht]⟩

/-- C8.  `_baixar_csv_cvm_fii` classifies every failure as a tagged error
value instead of raising: download exception, content below the 100-byte
floor, and zip failure each yield their error tag; otherwise every `.csv`
entry is decoded (UTF-8 first, Latin-1 on `UnicodeDecodeError`) and parsed
as semicolon-delimited rows whose column names come from the first row; and
the year loop of `cvm_informe_mensal` skips a year whose result is an error
and continues with the next year. -/
theorem baixar_csv_cvm_fii_erros_marcados :
    _baixar_csv_cvm_fii DownloadResp.exn = CvmCsvResult.erroDownload ∧
    (∀ c : ZipContent, c.tamanho < 100 →
      _baixar_csv_cvm_fii (DownloadResp.resp c) = CvmCsvResult.erroTamanho c.tamanho) ∧
    (∀ c : ZipContent, ¬ c.tamanho < 100 → c.entradas = none →
      _baixar_csv_cvm_fii (DownloadResp.resp c) = CvmCsvResult.erroZip) ∧
    (∀ (c : ZipContent) (es : List ZipEntry), ¬ c.tamanho < 100 → c.entradas = some es →
      _baixar_csv_cvm_fii (DownloadResp.resp c) =
        CvmCsvResult.ok ((es.filter (fun e => endsWith (str ".csv") e.nome)).map
          (fun e => (e.nome, parseCsvSemicolon (decodificarEntrada e))))) ∧
    (∀ e : ZipEntry, (∀ t, e.utf8 = some t → decodificarEntrada e = t) ∧
      (e.utf8 = none → decodificarEntrada e = e.latin1)) ∧
    (∀ (texto : Str) (r : RowS), r ∈ parseCsvSemicolon texto →
      r.map Prod.fst <+:
        splitOnChar ';' (((splitOnChar '\n' texto).filter (fun l => l ≠ [])).headD [])) ∧
    (∀ (ano : ℤ) (anos : List ℤ) (fetch : ℤ → CvmCsvResult) (cnpj : Str),
      ehErro (fetch ano) = true →
      informeAnoEscolhido (ano :: anos) fetch cnpj = informeAnoEscolhido anos fetch cnpj) := by
  refine ⟨rfl, ?_, ?_, ?_, ?_, ?_, ?_⟩
  · intro c hc
    unfold _baixar_csv_cvm_fii
    dsimp only
    rw [if_pos hc]
  · intro c hc hent
    unfold _baixar_csv_cvm_fii
    dsimp only
    rw [if_neg hc, hent]
  · intro c es hc hent
    unfold _baixar_csv_cvm_fii
    dsimp only
    rw [if_neg hc, hent]
  · intro e
    constructor
    · intro t ht
      unfold decodificarEntrada
      rw [ht]
    · intro ht
      unfold decodificarEntrada
      rw [ht]
  · intro texto r hr
    simp only [parseCsvSemicolon] at hr
    rcases hl : (splitOnChar '\n' texto).filter (fun l => l ≠ []) with _ | ⟨cab, resto⟩ <;>
      rw [hl] at hr ⊢ <;> dsimp only at hr
    · exact absurd hr (List.not_mem_nil r)
    · rcases List.mem_map.mp hr with ⟨l, _, rfl⟩
      rw [List.headD_cons]
      exact zip_fst_prefix (splitOnChar ';' cab) (splitOnChar ';' l)
  · intro ano anos fetch cnpj herro
    unfold informeAnoEscolhido
    refine List.find?_cons_of_neg anos ?_
    rcases hf : fetch ano with _ | n | _ | ts
    · simp
    · simp
    · simp
    · rw [hf] at herro
      exact absurd herro (by simp [ehErro])

def entradaW : ZipEntry :=
  { nome := str "inf_mensal_fii_complemento_2024.csv",
    utf8 := some (str "CNPJ_FUNDO;VL_PATRIM_LIQ\n11.728.688/0001-47;100"),
    latin1 := str "" }

def conteudoW : ZipContent := { tamanho := 5000, entradas := some [entradaW] }

def fetchW : ℤ → CvmCsvResult := fun a =>
  if a = 2024 then
    CvmCsvResult.ok [(str "inf_mensal_fii_complemento_2024.csv",
      [[(str "CNPJ_FUNDO", str "11.728.688/0001-47"),
        (str "VL_PATRIM_LIQ", str "100")]])]
  else CvmCsvResult.erroDownload

/-- Witness for C8: a concrete archive parses into its header-keyed rows, and
the year loop skips a failing year 2023 and settles on 2024. -/
theorem baixar_csv_cvm_fii_erros_marcados_witness :
    _baixar_csv_cvm_fii (DownloadResp.resp conteudoW) =
      CvmCsvResult.ok [(str "inf_mensal_fii_complemento_2024.csv",
        [[(str "CNPJ_FUNDO", str "11.728.688/0001-47"),
          (str "VL_PATRIM_LIQ", str "100")]])] ∧
    informeAnoEscolhido [(2023 : ℤ), 2024] fetchW (str "11.728.688/0001-47") = some 2024 := by
  constructor
  · have h := baixar_csv_cvm_fii_erros_marcados.2.2.2.1 conteudoW [entradaW]
      (by decide) rfl
    rw [h]
    decide
  · have h := baixar_csv_cvm_fii_erros_marcados.2.2.2.2.2.2 2023 [(2024 : ℤ)] fetchW
      (str "11.728.688/0001-47") (by decide)
    rw [h]
    decide

/-! ## Claim C4: strictly increasing timelines -/

theorem nodup_append_single {α : Type} {l : List α} {x : α} (h : l.Nodup) (hx : x ∉ l) :
    (l ++ [x]).Nodup := by
  refine List.nodup_append.mpr ⟨h, List.nodup_singleton x, ?_⟩
  intro a ha hax
  rw [List.mem_singleton] at hax
  exact hx (hax ▸ ha)

theorem mem_of_getLast_eq {α : Type} : ∀ {l : List α} {u : α}, l.getLast? = some u → u ∈ l := by
  intro l
  induction l with
  | nil => intro u hu; exact Option.noConfusion hu
  | cons x xs ih =>
    intro u hu
    cases xs with
    | nil =>
      rw [List.getLast?_singleton] at hu
      exact List.mem_singleton.mpr (Option.some.inj hu).symm
    | cons y ys =>
      rw [List.getLast?_cons_cons] at hu
      exact List.mem_cons_of_mem x (ih hu)

theorem getLast_max_of_pairwise {l : List Str} (hp : l.Pairwise (fun a b => strLe a b = true))
    {u : Str} (hu : l.getLast? = some u) : ∀ q ∈ l, strLe q u = true := by
  induction l with
  | nil => intro q hq; exact absurd hq (List.not_mem_nil q)
  | cons x xs ih =>
    rcases List.pairwise_cons.mp hp with ⟨hx, hxs⟩
    intro q hq
    cases xs with
    | nil =>
      rw [List.getLast?_singleton] at hu
      have hxu := Option.some.inj hu
      subst hxu
      rw [List.mem_singleton] at hq
      subst hq
      exact strLe_refl q
    | cons y ys =>
      rw [List.getLast?_cons_cons] at hu
      rcases List.mem_cons.mp hq with rfl | hq2
      · exact hx u (mem_of_getLast_eq hu)
      · exact ih hxs hu q hq2

theorem mem_dedup_fold (l acc : List Str) (x : Str) :
    x ∈ l.foldl (fun acc y => if y ∈ acc then acc else acc ++ [y]) acc ↔ x ∈ acc ∨ x ∈ l := by
  induction l generalizing acc with
  | nil => simp
  | cons y ys ih =>
    simp only [List.foldl_cons]
    by_cases hy : y ∈ acc
    · rw [if_pos hy, ih]
      constructor
      · rintro (h | h)
        · exact Or.inl h
        · exact Or.inr (List.mem_cons_of_mem y h)
      · rintro (h | h)
        · exact Or.inl h
        · rcases List.mem_cons.mp h with rfl | h
          · exact Or.inl hy
          · exact Or.inr h
    · rw [if_neg hy, ih]
      simp only [List.mem_append, List.mem_singleton, List.mem_cons]
      tauto

theorem mem_dedupStr (l : List Str) (x : Str) : x ∈ dedupStr l ↔ x ∈ l := by
  unfold dedupStr
  have h := mem_dedup_fold l [] x
  simp only [List.not_mem_nil, false_or] at h
  exact h

theorem passoAno_subset (periodos sel : List Str) (a : Str) :
    ∀ x ∈ sel, x ∈ passoAno periodos sel a := by
  intro x hx
  unfold passoAno
  dsimp only
  split
  · exact List.mem_append_left _ hx
  · split
    · split
      · exact List.mem_append_left _ hx
      · exact hx
    · exact hx

theorem passoAno_nodup (periodos sel : List Str) (a : Str) (h : sel.Nodup) :
    (passoAno periodos sel a).Nodup := by
  unfold passoAno
  dsimp only
  split
  next hc => exact nodup_append_single h hc.2
  next hc =>
    split
    next u hg =>
      split
      next hu => exact nodup_append_single h hu
      next hu => exact h
    next hg => exact h

theorem passoAno_mem (periodos sel : List Str) (a : Str) :
    ∀ x ∈ passoAno periodos sel a, x ∈ sel ∨ x ∈ periodos := by
  intro x hx
  unfold passoAno at hx
  dsimp only at hx
  split at hx
  next hc =>
    rcases List.mem_append.mp hx with h | h
    · exact Or.inl h
    · rw [List.mem_singleton] at h
      exact Or.inr (h ▸ hc.1)
  next hc =>
    split at hx
    next u hg =>
      have hu : u ∈ periodos := by
        have h1 : u ∈ (pySort strLe periodos).filter (fun p => isPrefixC a p) :=
          mem_of_getLast_eq hg
        exact ((pySort_perm strLe periodos).mem_iff).mp (List.mem_of_mem_filter h1)
      split at hx
      next hne =>
        rcases List.mem_append.mp hx with h | h
        · exact Or.inl h
        · rw [List.mem_singleton] at h
          exact Or.inr (h ▸ hu)
      next hne => exact Or.inl hx
    next hg => exact Or.inl hx

theorem passoAno_escolha (periodos sel : List Str) (a u : Str)
    (h : escolhaAno periodos a = some u) : u ∈ passoAno periodos sel a := by
  by_cases hin : u ∈ sel
  · exact passoAno_subset periodos sel a u hin
  · unfold escolhaAno at h
    unfold passoAno
    dsimp only
    by_cases hdez : a ++ str "-12" ∈ periodos
    · rw [if_pos hdez] at h
      obtain rfl : a ++ str "-12" = u := Option.some.inj h
      rw [if_pos ⟨hdez, hin⟩]
      exact List.mem_append_right _ (List.mem_singleton_self _)
    · rw [if_neg hdez] at h
      rw [if_neg (show ¬(a ++ str "-12" ∈ periodos ∧ a ++ str "-12" ∉ sel) from
        fun hc => hdez hc.1)]
      rw [h]
      dsimp only
      rw [if_pos hin]
      exact List.mem_append_right _ (List.mem_singleton_self _)

theorem foldl_passoAno_subset (periodos anos sel : List Str) :
    ∀ x ∈ sel, x ∈ anos.foldl (passoAno periodos) sel := by
  induction anos generalizing sel with
  | nil => intro x hx; exact hx
  | cons a as ih =>
    intro x hx
    exact ih (passoAno periodos sel a) x (passoAno_subset periodos sel a x hx)

theorem foldl_passoAno_nodup (periodos anos : List Str) {sel : List Str} (h : sel.Nodup) :
    (anos.foldl (passoAno periodos) sel).Nodup := by
  induction anos generalizing sel with
  | nil => exact h
  | cons a as ih => exact ih (passoAno_nodup periodos sel a h)

theorem foldl_passoAno_mem (periodos anos sel : List Str) :
    ∀ x ∈ anos.foldl (passoAno periodos) sel, x ∈ sel ∨ x ∈ periodos := by
  induction anos generalizing sel with
  | nil => intro x hx; exact Or.inl hx
  | cons a as ih =>
    intro x hx
    rcases ih (passoAno periodos sel a) x hx with h | h
    · exact passoAno_mem periodos sel a x h
    · exact Or.inr h

theorem foldl_passoAno_escolha (periodos anos sel : List Str) (a u : Str)
    (ha : a ∈ anos) (h : escolhaAno periodos a = some u) :
    u ∈ anos.foldl (passoAno periodos) sel := by
  induction anos generalizing sel with
  | nil => exact absurd ha (List.not_mem_nil a)
  | cons b bs ih =>
    rcases List.mem_cons.mp ha with rfl | ha2
    · exact foldl_passoAno_subset periodos bs (passoAno periodos sel a) u
        (passoAno_escolha periodos sel a u h)
    · exact ih (passoAno periodos sel b) ha2

theorem selecaoBruta_nodup (periodos : List Str) (p0 : Str) (resto : List Str) :
    (selecaoBruta periodos p0 resto).Nodup := by
  unfold selecaoBruta
  dsimp only
  split
  next h => exact nodup_append_single (foldl_passoAno_nodup periodos _ (List.nodup_singleton p0)) h
  next h => exact foldl_passoAno_nodup periodos _ (List.nodup_singleton p0)

theorem selecaoBruta_mem (periodos : List Str) (p0 : Str) (resto : List Str)
    (hpo : pySort strLe periodos = p0 :: resto) :
    ∀ x ∈ selecaoBruta periodos p0 resto, x ∈ periodos := by
  have hp0 : p0 ∈ periodos := by
    refine ((pySort_perm strLe periodos).mem_iff).mp ?_
    rw [hpo]
    exact List.mem_cons_self p0 resto
  have hlast : (p0 :: resto).getLast?.getD p0 ∈ periodos := by
    rcases hg : (p0 :: resto).getLast? with _ | u
    · rw [Option.getD_none]
      exact hp0
    · rw [Option.getD_some]
      have hmem : u ∈ p0 :: resto := mem_of_getLast_eq hg
      rw [← hpo] at hmem
      exact ((pySort_perm strLe periodos).mem_iff).mp hmem
  intro x hx
  unfold selecaoBruta at hx
  dsimp only at hx
  split at hx
  next h =>
    rcases List.mem_append.mp hx with h2 | h2
    · rcases foldl_passoAno_mem periodos _ [p0] x h2 with h3 | h3
      · rw [List.mem_singleton] at h3
        exact h3 ▸ hp0
      · exact h3
    · rw [List.mem_singleton] at h2
      exact h2 ▸ hlast
  next h =>
    rcases foldl_passoAno_mem periodos _ [p0] x hx with h3 | h3
    · rw [List.mem_singleton] at h3
      exact h3 ▸ hp0
    · exact h3

theorem selecaoBruta_mem_p0 (periodos : List Str) (p0 : Str) (resto : List Str) :
    p0 ∈ selecaoBruta periodos p0 resto := by
  unfold selecaoBruta
  dsimp only
  have h1 : p0 ∈ (pySort strLe (dedupStr ((p0 :: resto).map fun p => p.take 4))).foldl
      (passoAno periodos) [p0] :=
    foldl_passoAno_subset periodos _ [p0] p0 (List.mem_singleton_self p0)
  split
  · exact List.mem_append_left _ h1
  · exact h1

theorem selecaoBruta_mem_last (periodos : List Str) (p0 : Str) (resto : List Str)
    (u : Str) (hu : (p0 :: resto).getLast? = some u) :
    u ∈ selecaoBruta periodos p0 resto := by
  unfold selecaoBruta
  dsimp only
  rw [hu, Option.getD_some]
  split
  next h => exact List.mem_append_right _ (List.mem_singleton_self u)
  next h => exact not_not.mp h

theorem selecaoBruta_escolha (periodos : List Str) (p0 : Str) (resto : List Str)
    (a u : Str) (ha : a ∈ pySort strLe (dedupStr ((p0 :: resto).map fun p => p.take 4)))
    (h : escolhaAno periodos a = some u) : u ∈ selecaoBruta periodos p0 resto := by
  unfold selecaoBruta
  dsimp only
  have h1 : u ∈ (pySort strLe (dedupStr ((p0 :: resto).map fun p => p.take 4))).foldl
      (passoAno periodos) [p0] :=
    foldl_passoAno_escolha periodos _ [p0] a u ha h
  split
  · exact List.mem_append_left _ h1
  · exact h1

theorem dedupPonto_fold_mem (pontos acc : List Ponto) :
    ∀ q ∈ pontos.foldl
      (fun acc p => if p.data ∈ acc.map Ponto.data then acc else acc ++ [p]) acc,
      q ∈ acc ∨ q ∈ pontos := by
  induction pontos generalizing acc with
  | nil => intro q hq; exact Or.inl hq
  | cons p ps ih =>
    intro q hq
    simp only [List.foldl_cons] at hq
    by_cases hp : p.data ∈ acc.map Ponto.data
    · rw [if_pos hp] at hq
      rcases ih acc q hq with h | h
      · exact Or.inl h
      · exact Or.inr (List.mem_cons_of_mem p h)
    · rw [if_neg hp] at hq
      rcases ih (acc ++ [p]) q hq with h | h
      · rcases List.mem_append.mp h with h2 | h2
        · exact Or.inl h2
        · rw [List.mem_singleton] at h2
          exact Or.inr (h2 ▸ List.mem_cons_self p ps)
      · exact Or.inr (List.mem_cons_of_mem p h)

theorem dedupPonto_fold_nodup (pontos : List Ponto) {acc : List Ponto}
    (h : (acc.map Ponto.data).Nodup) :
    ((pontos.foldl
      (fun acc p => if p.data ∈ acc.map Ponto.data then acc else acc ++ [p]) acc).map
        Ponto.data).Nodup := by
  induction pontos generalizing acc with
  | nil => exact h
  | cons p ps ih =>
    simp only [List.foldl_cons]
    by_cases hp : p.data ∈ acc.map Ponto.data
    · rw [if_pos hp]
      exact ih h
    · rw [if_neg hp]
      refine ih ?_
      rw [List.map_append, List.map_singleton]
      exact nodup_append_single h hp

theorem dedupPonto_fold_mono (pontos acc : List Ponto) (d : Str)
    (hd : d ∈ acc.map Ponto.data) :
    d ∈ ((pontos.foldl
      (fun acc p => if p.data ∈ acc.map Ponto.data then acc else acc ++ [p]) acc).map
        Ponto.data) := by
  induction pontos generalizing acc with
  | nil => exact hd
  | cons p ps ih =>
    simp only [List.foldl_cons]
    by_cases hp : p.data ∈ acc.map Ponto.data
    · rw [if_pos hp]
      exact ih acc hd
    · rw [if_neg hp]
      refine ih (acc ++ [p]) ?_
      rw [List.map_append]
      exact List.mem_append_left _ hd

theorem dedupPonto_fold_repr (pontos acc : List Ponto) :
    ∀ p ∈ pontos, p.data ∈ ((pontos.foldl
      (fun acc p => if p.data ∈ acc.map Ponto.data then acc else acc ++ [p]) acc).map
        Ponto.data) := by
  induction pontos generalizing acc with
  | nil => intro p hp; exact absurd hp (List.not_mem_nil p)
  | cons q qs ih =>
    intro p hp
    simp only [List.foldl_cons]
    rcases List.mem_cons.mp hp with rfl | hp2
    · by_cases hq : p.data ∈ acc.map Ponto.data
      · rw [if_pos hq]
        exact dedupPonto_fold_mono qs acc p.data hq
      · rw [if_neg hq]
        refine dedupPonto_fold_mono qs (acc ++ [p]) p.data ?_
        rw [List.map_append, List.map_singleton]
        exact List.mem_append_right _ (List.mem_singleton_self _)
    · by_cases hq : q.data ∈ acc.map Ponto.data
      · rw [if_pos hq]
        exact ih acc p hp2
      · rw [if_neg hq]
        exact ih (acc ++ [q]) p hp2

theorem strLeData_trans (p q r : Ponto) (hab : strLe p.data q.data = true)
    (hbc : strLe q.data r.data = true) : strLe p.data r.data = true :=
  strLe_trans hab hbc

theorem selecionarPeriodos_nil (periodos : List Str) (hpo : pySort strLe periodos = []) :
    selecionarPeriodos periodos = [] := by
  unfold selecionarPeriodos
  rw [hpo]

theorem selecionarPeriodos_eq (periodos : List Str) (p0 : Str) (resto : List Str)
    (hpo : pySort strLe periodos = p0 :: resto) :
    selecionarPeriodos periodos = pySort strLe (selecaoBruta periodos p0 resto) := by
  unfold selecionarPeriodos
  rw [hpo]

/-- C4.  Every timeline is strictly increasing and duplicate-free in its
period key: the snapshot selection of `cvm_evolucao_patrimonial` is strictly
ascending, drawn from the available periods, keeps the earliest and the
latest period, and for each year of any available period keeps that year's
December or else its last available month; and the unique history points of
`cvm_historico_vp` are strictly ascending in `data`, drawn from the scanned
points, with every scanned `data` represented exactly once. -/
theorem timeline_estritamente_crescente :
    (∀ periodos : List Str,
      (selecionarPeriodos periodos).Pairwise strLt ∧
      ∀ q ∈ selecionarPeriodos periodos, q ∈ periodos) ∧
    (∀ (periodos resto : List Str) (p0 : Str),
      pySort strLe periodos = p0 :: resto →
      p0 ∈ selecionarPeriodos periodos ∧
      (∀ q ∈ periodos, strLe p0 q = true) ∧
      ∀ u, (p0 :: resto).getLast? = some u →
        u ∈ selecionarPeriodos periodos ∧ ∀ q ∈ periodos, strLe q u = true) ∧
    (∀ (periodos : List Str) (p : Str), p ∈ periodos →
      ∀ u, escolhaAno periodos (p.take 4) = some u → u ∈ selecionarPeriodos periodos) ∧
    (∀ pontos : List Ponto,
      ((cvm_historico_vp_pontos pontos).map Ponto.data).Pairwise strLt ∧
      (∀ q ∈ cvm_historico_vp_pontos pontos, q ∈ pontos) ∧
      ∀ p ∈ pontos, ∃ q ∈ cvm_historico_vp_pontos pontos, q.data = p.data) := by
  refine ⟨?_, ?_, ?_, ?_⟩
  · intro periodos
    rcases hpo : pySort strLe periodos with _ | ⟨p0, resto⟩
    · rw [selecionarPeriodos_nil periodos hpo]
      exact ⟨List.Pairwise.nil, fun q hq => absurd hq (List.not_mem_nil q)⟩
    · rw [selecionarPeriodos_eq periodos p0 resto hpo]
      constructor
      · have h1 : (pySort strLe (selecaoBruta periodos p0 resto)).Pairwise
            (fun a b => strLe a b = true) :=
          pySort_pairwise strLe strLe_total (fun a b c hab hbc => strLe_trans hab hbc) _
        have h2 : (pySort strLe (selecaoBruta periodos p0 resto)).Nodup :=
          pySort_nodup strLe (selecaoBruta_nodup periodos p0 resto)
        exact (h1.and h2).imp (fun h => h)
      · intro q hq
        exact selecaoBruta_mem periodos p0 resto hpo q (((pySort_perm strLe _).mem_iff).mp hq)
  · intro periodos resto p0 hpo
    have hperm := pySort_perm strLe (selecaoBruta periodos p0 resto)
    refine ⟨?_, ?_, ?_⟩
    · rw [selecionarPeriodos_eq periodos p0 resto hpo]
      exact hperm.mem_iff.mpr (selecaoBruta_mem_p0 periodos p0 resto)
    · have hp : (pySort strLe periodos).Pairwise (fun a b => strLe a b = true) :=
        pySort_pairwise strLe strLe_total (fun a b c hab hbc => strLe_trans hab hbc) _
      rw [hpo] at hp
      rcases List.pairwise_cons.mp hp with ⟨hhead, _⟩
      intro q hq
      have hq2 : q ∈ p0 :: resto := by
        rw [← hpo]
        exact ((pySort_perm strLe periodos).mem_iff).mpr hq
      rcases List.mem_cons.mp hq2 with rfl | hq3
      · exact strLe_refl _
      · exact hhead q hq3
    · intro u hu
      constructor
      · rw [selecionarPeriodos_eq periodos p0 resto hpo]
        exact hperm.mem_iff.mpr (selecaoBruta_mem_last periodos p0 resto u hu)
      · have hp : (pySort strLe periodos).Pairwise (fun a b => strLe a b = true) :=
          pySort_pairwise strLe strLe_total (fun a b c hab hbc => strLe_trans hab hbc) _
        have hu2 : (pySort strLe periodos).getLast? = some u := by
          rw [hpo]
          exact hu
        intro q hq
        exact getLast_max_of_pairwise hp hu2 q (((pySort_perm strLe periodos).mem_iff).mpr hq)
  · intro periodos p hp u hesc
    rcases hpo : pySort strLe periodos with _ | ⟨p0, resto⟩
    · exfalso
      have hmem := ((pySort_perm strLe periodos).mem_iff).mpr hp
      rw [hpo] at hmem
      exact List.not_mem_nil p hmem
    · rw [selecionarPeriodos_eq periodos p0 resto hpo]
      refine ((pySort_perm strLe _).mem_iff).mpr ?_
      refine selecaoBruta_escolha periodos p0 resto (p.take 4) u ?_ hesc
      refine ((pySort_perm strLe _).mem_iff).mpr ?_
      rw [mem_dedupStr]
      refine List.mem_map.mpr ⟨p, ?_, rfl⟩
      rw [← hpo]
      exact ((pySort_perm strLe periodos).mem_iff).mpr hp
  · intro pontos
    refine ⟨?_, ?_, ?_⟩
    · unfold cvm_historico_vp_pontos
      have h1 : (pySort (fun p q => strLe p.data q.data) (dedupPorData pontos)).Pairwise
          (fun p q => strLe p.data q.data = true) :=
        pySort_pairwise (fun p q => strLe p.data q.data)
          (fun p q => strLe_total p.data q.data)
          strLeData_trans (dedupPorData pontos)
      have h2 : ((pySort (fun p q => strLe p.data q.data) (dedupPorData pontos)).map
          Ponto.data).Nodup := by
        have hperm := (pySort_perm (fun p q => strLe p.data q.data)
          (dedupPorData pontos)).map Ponto.data
        refine hperm.nodup_iff.mpr ?_
        unfold dedupPorData
        exact dedupPonto_fold_nodup pontos List.nodup_nil
      rw [List.pairwise_map]
      have h3 := List.pairwise_map.mp h2
      exact (h1.and h3).imp (fun h => h)
    · intro q hq
      unfold cvm_historico_vp_pontos at hq
      have hq2 := ((pySort_perm _ _).mem_iff).mp hq
      unfold dedupPorData at hq2
      rcases dedupPonto_fold_mem pontos [] q hq2 with h | h
      · exact absurd h (List.not_mem_nil q)
      · exact h
    · intro p hp
      have hd : p.data ∈ (dedupPorData pontos).map Ponto.data := by
        unfold dedupPorData
        exact dedupPonto_fold_repr pontos [] p hp
      have hd2 : p.data ∈ (cvm_historico_vp_pontos pontos).map Ponto.data := by
        unfold cvm_historico_vp_pontos
        exact (((pySort_perm _ _).map Ponto.data).mem_iff).mpr hd
      rcases List.mem_map.mp hd2 with ⟨q, hq, hqd⟩
      exact ⟨q, hq, hqd⟩

def periodosW : List Str := [str "2023-01", str "2023-12", str "2024-03"]

def pontoW1 : Ponto := ⟨str "2023-12", 100, 10, none, 10, 2023⟩

def pontoW2 : Ponto := ⟨str "2023-01", 90, 10, none, 9, 2023⟩

def pontosW : List Ponto := [pontoW1, pontoW2, pontoW1]

/-- Witness for C4: on three concrete periods the selection is strictly
ascending and retains the earliest period, each year's December-or-last
month, and the latest period; and concrete history points with a duplicated
date come out strictly ascending with the date represented. -/
theorem timeline_estritamente_crescente_witness :
    (selecionarPeriodos periodosW).Pairwise strLt ∧
    str "2023-01" ∈ periodosW ∧
    str "2023-01" ∈ selecionarPeriodos periodosW ∧
    strLe (str "2023-01") (str "2023-12") = true ∧
    str "2024-03" ∈ selecionarPeriodos periodosW ∧
    strLe (str "2023-12") (str "2024-03") = true ∧
    str "2023-12" ∈ selecionarPeriodos periodosW ∧
    ((cvm_historico_vp_pontos pontosW).map Ponto.data).Pairwise strLt ∧
    (∃ q ∈ cvm_historico_vp_pontos pontosW, q.data = pontoW1.data) := by
  have h1 := timeline_estritamente_crescente.1 periodosW
  have h2 := timeline_estritamente_crescente.2.1 periodosW [str "2023-12", str "2024-03"]
    (str "2023-01") (by decide)
  have h3 := timeline_estritamente_crescente.2.2.1 periodosW (str "2023-12") (by decide)
    (str "2023-12") (by decide)
  have h4 := timeline_estritamente_crescente.2.2.2 pontosW
  exact ⟨h1.1,
    h1.2 (str "2023-01") h2.1,
    h2.1,
    h2.2.1 (str "2023-12") (by decide),
    (h2.2.2 (str "2024-03") (by decide)).1,
    (h2.2.2 (str "2024-03") (by decide)).2 (str "2023-12") (by decide),
    h3,
    h4.1,
    h4.2.2 pontoW1 (by decide)⟩
